import Mathlib

/-!
Verification development for the lowballm negotiation benchmark.

The definitions below are a shallow embedding of the JavaScript sources:

* `src/server/benchmark.js` — the Match Engine (`runMatch`) and the
  Tournament Scheduler (`runTournament`);
* `src/unnamed/part_000`   — the standalone CLI predecessor of the match
  engine (its own `runMatch`);
* `src/server/server.js` (second half) and `src/benchmark-cli/agents.js` —
  the Agent layer, in particular the JSON parsing of raw model output.

Modelling conventions:

* JavaScript numbers are embedded as `Rat` (the engine's arithmetic on
  offers, estimates and scores is exact in the inputs we reason about);
  `Math.round` results (the private estimates) are `Int`.
* The dynamic value of a reply's `offer` field is `JsVal`:
  `undef` (the field is absent), `jnull` (the field is JSON `null`), or
  `num q` (a number).  JavaScript strict equality `===` on this subset is
  structural equality, and `!== null` is inequality with `jnull`.
  Truthiness (`if (dealPrice)`) is `JsVal.truthy`.
* The external text-generation capability is an oracle
  `gen : Nat → Except String Reply` indexed by the global count of
  generation calls made so far; a `.error` models a thrown provider error.
* The shared `AbortController` signal is `ab : Option Nat`: the signal
  reads as set once at least `ab.get` generation calls have completed.
  This captures a cancellation arriving "while a match is in flight".
* The result store (per-run JSON files plus `manifest.json`) is `Store`;
  `writeFileSync(run_<id>.json, …)` appends to `runs` and the manifest
  `unshift` prepends to `manifest`.
* `logger(...)` lines that the claims mention (system rejections, the
  silence termination, deal / no-deal outcome) are modelled as `SysEvent`
  values accumulated in order; purely informational lines are dropped.
* Wall-clock dates (`new Date().toISOString()`, `Date.now()` run ids) have
  no behavioural role; run ids are derived from the global call counter.
-/

namespace Lowballm

/-- A negotiation role, `"seller"` or `"buyer"` in the source. -/
inductive Role where
  | seller
  | buyer
deriving DecidableEq, Repr

def roleName : Role → String
  | Role.seller => "seller"
  | Role.buyer => "buyer"

/-- The dynamic JavaScript value stored in a reply's `offer` field (and in
`lastOffer` / `dealPrice`): absent (`undefined`), JSON `null`, or a number. -/
inductive JsVal where
  | undef
  | jnull
  | num (q : Rat)
deriving DecidableEq, Repr

/-- JavaScript truthiness of a `JsVal` (used by `if (dealReached && dealPrice)`):
`undefined` and `null` are falsy, a number is falsy exactly when it is `0`. -/
def JsVal.truthy : JsVal → Bool
  | JsVal.num q => decide (q ≠ 0)
  | _ => false

/-- The numeric content of a `JsVal`; only ever used under a `truthy` guard,
where the value is a number. -/
def JsVal.toRat : JsVal → Rat
  | JsVal.num q => q
  | _ => 0

/-- One structured reply of an agent turn, as consumed by the match engine:
the parsed `{thought, message, offer, deal}` object with the provider usage
metadata attached by `generateResponse` (`{...data, usage}`). -/
structure Reply where
  thought : String
  message : String
  offer : JsVal
  deal : Bool
  usage : Option Nat
deriving DecidableEq, Repr

/-- A reply as it is pushed into the match log: `{...response, usage: undefined}`,
i.e. the reply content minus the usage metadata.  The `deal` field holds the
possibly downgraded flag, since the engine mutates `response.deal` in place
before pushing. -/
structure ReplyContent where
  thought : String
  message : String
  offer : JsVal
  deal : Bool
deriving DecidableEq, Repr

/-- System / outcome lines emitted through the `logger` sink that the claims
talk about. -/
inductive SysEvent where
  | rejectedMismatch (offered previous : JsVal)
  | rejectedNoValidOffer
  | silenceEnd
  | dealAt (p : JsVal)
  | noDealEnd
deriving DecidableEq, Repr

/-- One per-turn entry of the match log (`logs.push({...})` in `runMatch`). -/
structure LogEntry where
  turn : Nat
  sender : String
  role : Role
  content : ReplyContent
deriving DecidableEq, Repr

/-- The display names of the two parties of one match (used for the `sender`
field of log entries). -/
structure MatchNames where
  sellerName : String
  buyerName : String
deriving DecidableEq, Repr

def activeName (cfg : MatchNames) : Role → String
  | Role.seller => cfg.sellerName
  | Role.buyer => cfg.buyerName

/-- The mutable state of the `while` loop of `runMatch`
(`src/server/benchmark.js`, lines 76-150). -/
structure LoopState where
  turns : Nat
  dealReached : Bool
  dealPrice : JsVal
  lastOffer : JsVal
  lastOfferBy : Option Role
  consecutiveNulls : Nat
  active : Role
  logs : List LogEntry
  events : List SysEvent
  sellerTokens : Nat
  buyerTokens : Nat
deriving DecidableEq, Repr

/-- The initial loop state (lines 76-89 of `benchmark.js`): seller speaks
first, no pending offer, no deal. -/
def initState : LoopState :=
  { turns := 0
    dealReached := false
    dealPrice := JsVal.jnull
    lastOffer := JsVal.jnull
    lastOfferBy := none
    consecutiveNulls := 0
    active := Role.seller
    logs := []
    events := []
    sellerTokens := 0
    buyerTokens := 0 }

/-- Outcome of the deal-claim validation block (lines 101-117 of
`benchmark.js`): the updated `dealReached`, `dealPrice`, the (possibly
downgraded) `response.deal` flag, and the emitted system events. -/
structure DealCheck where
  dealReached : Bool
  dealPrice : JsVal
  deal : Bool
  events : List SysEvent
deriving DecidableEq, Repr

/-- Lines 101-117 of `src/server/benchmark.js`: a `deal:true` reply is
accepted only when `lastOffer !== null`, `lastOfferBy !== activeAgent.role`
and `response.offer === lastOffer`; otherwise a system rejection is logged
and `response.deal` is set to `false`. -/
def validateDeal (response : Reply) (st : LoopState) : DealCheck :=
  if response.deal then
    if st.lastOffer ≠ JsVal.jnull ∧ st.lastOfferBy ≠ some st.active then
      if response.offer = st.lastOffer then
        { dealReached := true, dealPrice := response.offer, deal := true
          events := st.events }
      else
        { dealReached := false, dealPrice := st.dealPrice, deal := false
          events := st.events ++ [SysEvent.rejectedMismatch response.offer st.lastOffer] }
    else
      { dealReached := false, dealPrice := st.dealPrice, deal := false
        events := st.events ++ [SysEvent.rejectedNoValidOffer] }
  else
    { dealReached := st.dealReached, dealPrice := st.dealPrice
      deal := response.deal, events := st.events }

/-- Result of one iteration of the `while` loop body: `halted` is the
`break` of the silence rule (line 131; note that it skips the `logs.push`),
`stepped` finishes the body (push, token tracking, role swap). -/
inductive TurnOut where
  | halted (st : LoopState)
  | stepped (st : LoopState)
deriving DecidableEq, Repr

/-- The log entry pushed at lines 136-141 of `benchmark.js`. -/
def mkLogEntry (cfg : MatchNames) (st : LoopState) (response : Reply)
    (dealFlag : Bool) : LogEntry :=
  { turn := st.turns
    sender := activeName cfg st.active ++ " (" ++ roleName st.active ++ ")"
    role := st.active
    content :=
      { thought := response.thought, message := response.message
        offer := response.offer, deal := dealFlag } }

/-- Token accounting of lines 144-146 (`activeAgent.trackTokens(response.usage)`;
missing usage is treated as zero). -/
def addTokens (st : LoopState) (usage : Option Nat) : LoopState :=
  match usage with
  | none => st
  | some u =>
    match st.active with
    | Role.seller => { st with sellerTokens := st.sellerTokens + u }
    | Role.buyer => { st with buyerTokens := st.buyerTokens + u }

def swapActive : Role → Role
  | Role.seller => Role.buyer
  | Role.buyer => Role.seller

/-- The tail of a non-`break` loop iteration (lines 136-149): the
`logs.push` with the possibly-downgraded `deal` flag, the token tracking,
and the role swap; `lastOffer`, `lastOfferBy` and `consecutiveNulls` carry
the values assigned by the offer bookkeeping of lines 122-134. -/
def stepFinish (cfg : MatchNames) (response : Reply) (st : LoopState)
    (v : DealCheck) (lastOffer : JsVal) (lastOfferBy : Option Role)
    (consecutiveNulls : Nat) : LoopState :=
  let st1 := addTokens
    { st with dealReached := v.dealReached, dealPrice := v.dealPrice
              lastOffer := lastOffer, lastOfferBy := lastOfferBy
              consecutiveNulls := consecutiveNulls
              events := v.events
              logs := st.logs ++ [mkLogEntry cfg st response v.deal] }
    response.usage
  { st1 with active := swapActive st1.active }

/-- One iteration of the `while` loop body of `runMatch`
(`src/server/benchmark.js`, lines 93-149), after `turns++` has already been
applied to `st` (so `st.turns` is the index of the turn being taken):
deal-claim validation, offer bookkeeping with the silence `break`, then the
common iteration tail (`stepFinish`). -/
def turnStep (cfg : MatchNames) (response : Reply) (st : LoopState) : TurnOut :=
  let v := validateDeal response st
  if v.dealReached = false then
    if response.offer ≠ JsVal.jnull then
      TurnOut.stepped (stepFinish cfg response st v response.offer (some st.active) 0)
    else
      if 2 ≤ st.consecutiveNulls + 1 then
        -- line 131: `break` — the loop ends before `logs.push`
        TurnOut.halted
          { st with dealReached := v.dealReached, dealPrice := v.dealPrice
                    consecutiveNulls := st.consecutiveNulls + 1
                    events := v.events ++ [SysEvent.silenceEnd] }
      else
        TurnOut.stepped
          (stepFinish cfg response st v st.lastOffer st.lastOfferBy
            (st.consecutiveNulls + 1))
  else
    TurnOut.stepped
      (stepFinish cfg response st v st.lastOffer st.lastOfferBy
        st.consecutiveNulls)

/-- The shared turn cap (`const maxTurns = 12`). -/
def maxTurns : Nat := 12

/-- The message of the distinguished abort exception
(`throw new Error("Benchmark Aborted")`). -/
def abortedMsg : String := "Benchmark Aborted"

/-- Whether the shared abort signal reads as set after `t` generation calls
have completed. -/
def jsAborted : Option Nat → Nat → Bool
  | none, _ => false
  | some a, t => decide (a ≤ t)

/-- The `while (turns < maxTurns && !dealReached)` loop of `runMatch`
(lines 91-150).  `t0` is the number of generation calls completed before the
match started; the per-turn abort check is line 92, and a thrown condition
is returned as `some message` together with the loop state at the throw
(`turns++` precedes the `await`, so a throwing generation call still counts
its turn). -/
def runLoop (cfg : MatchNames) (gen : Nat → Except String Reply)
    (ab : Option Nat) (t0 : Nat) : Nat → LoopState → LoopState × Option String
  | 0, st => (st, none)
  | Nat.succ fuel, st =>
    if st.turns < maxTurns ∧ st.dealReached = false then
      if jsAborted ab (t0 + st.turns) then (st, some abortedMsg)
      else
        match gen (t0 + st.turns) with
        | Except.error e => ({ st with turns := st.turns + 1 }, some e)
        | Except.ok response =>
          match turnStep cfg response { st with turns := st.turns + 1 } with
          | TurnOut.halted st1 => (st1, none)
          | TurnOut.stepped st1 => runLoop cfg gen ab t0 fuel st1
    else (st, none)

/-! ### Match result, result store, `runMatch` -/

/-- One side's block of a `MatchResult` (the `seller:`/`buyer:` objects of
the result built at lines 167-191 of `benchmark.js`). -/
structure SideInfo where
  name : String
  model : String
  estimate : Int
  score : Rat
  thinkingTokens : Nat
deriving DecidableEq, Repr

/-- The immutable per-match record written to `run_<id>.json`
(the wall-clock `date` field is omitted: the model has no clock). -/
structure MatchResult where
  id : String
  tournament : Option String
  item : String
  trueValue : Int
  seller : SideInfo
  buyer : SideInfo
  dealReached : Bool
  dealPrice : JsVal
  turns : Nat
  logs : List LogEntry
deriving DecidableEq, Repr

/-- One side's block of a manifest entry (no token count). -/
structure ManifestSide where
  name : String
  model : String
  estimate : Int
  score : Rat
deriving DecidableEq, Repr

/-- The denormalized summary `unshift`ed onto `manifest.json`
(lines 208-228 of `benchmark.js`; again minus the `date`). -/
structure ManifestEntry where
  id : String
  tournament : Option String
  item : String
  trueValue : Int
  dealReached : Bool
  dealPrice : JsVal
  seller : ManifestSide
  buyer : ManifestSide
deriving DecidableEq, Repr

/-- The on-disk result store: the per-run files (in the order they were
written) and the manifest list (most recent first). -/
structure Store where
  runs : List (String × MatchResult)
  manifest : List ManifestEntry
deriving DecidableEq, Repr

/-- The state threaded through a tournament: the result store, the number of
generation calls completed so far, and the lines emitted through the logger
sink. -/
structure TState where
  store : Store
  time : Nat
  logLines : List SysEvent
deriving DecidableEq, Repr

/-- Identity of one configured party (`{name, modelId}` as passed to
`runMatch`). -/
structure AgentConf where
  name : String
  modelId : String
deriving DecidableEq, Repr

/-- The random scenario draw made at the top of `runMatch` (lines 43-52):
item, true value, and the two rounded private estimates.  The randomness is
an oracle indexed by the global call counter at match start. -/
structure ScenarioDraw where
  item : String
  trueValue : Int
  sellerEst : Int
  buyerEst : Int
deriving DecidableEq, Repr

/-- The scoring of lines 156-165: neutral `0.0` unless
`dealReached && dealPrice` (JavaScript truthiness, so a deal price of `0`
falls through to the neutral branch). -/
def sellerScoreOf (st : LoopState) (sellerEst : Int) : Rat :=
  if st.dealReached = true ∧ st.dealPrice.truthy = true then
    (st.dealPrice.toRat - (sellerEst : Rat)) / (sellerEst : Rat)
  else 0

def buyerScoreOf (st : LoopState) (buyerEst : Int) : Rat :=
  if st.dealReached = true ∧ st.dealPrice.truthy = true then
    ((buyerEst : Rat) - st.dealPrice.toRat) / (buyerEst : Rat)
  else 0

/-- The outcome line logged at lines 159-165. -/
def outcomeEvent (st : LoopState) : SysEvent :=
  if st.dealReached = true ∧ st.dealPrice.truthy = true then
    SysEvent.dealAt st.dealPrice
  else SysEvent.noDealEnd

/-- The result object of lines 167-191. -/
def mkResult (runId : String) (tid : Option String) (draw : ScenarioDraw)
    (buyerConf sellerConf : AgentConf) (st : LoopState) : MatchResult :=
  { id := runId
    tournament := tid
    item := draw.item
    trueValue := draw.trueValue
    seller :=
      { name := sellerConf.name, model := sellerConf.modelId
        estimate := draw.sellerEst, score := sellerScoreOf st draw.sellerEst
        thinkingTokens := st.sellerTokens }
    buyer :=
      { name := buyerConf.name, model := buyerConf.modelId
        estimate := draw.buyerEst, score := buyerScoreOf st draw.buyerEst
        thinkingTokens := st.buyerTokens }
    dealReached := st.dealReached
    dealPrice := st.dealPrice
    turns := st.turns
    logs := st.logs }

/-- The manifest entry of lines 208-228. -/
def mkManifestEntry (res : MatchResult) : ManifestEntry :=
  { id := res.id
    tournament := res.tournament
    item := res.item
    trueValue := res.trueValue
    dealReached := res.dealReached
    dealPrice := res.dealPrice
    seller :=
      { name := res.seller.name, model := res.seller.model
        estimate := res.seller.estimate, score := res.seller.score }
    buyer :=
      { name := res.buyer.name, model := res.buyer.model
        estimate := res.buyer.estimate, score := res.buyer.score } }

/-- `runMatch` of `src/server/benchmark.js` (lines 38-232): the scenario
draw, the initial abort check (line 82, before anything is persisted), the
turn loop, scoring, and persistence (run file append + manifest prepend).
A thrown condition (`Benchmark Aborted` or a provider error) is returned as
`.error` and leaves the store untouched, because the `throw` happens before
the save code. -/
def serverRunMatch (runId : String) (buyerConf sellerConf : AgentConf)
    (tid : Option String) (gen : Nat → Except String Reply) (ab : Option Nat)
    (scen : Nat → ScenarioDraw) (s : TState) : TState × Except String MatchResult :=
  let draw := scen s.time
  if jsAborted ab s.time then (s, Except.error abortedMsg)
  else
    let cfg : MatchNames := { sellerName := sellerConf.name, buyerName := buyerConf.name }
    let r := runLoop cfg gen ab s.time maxTurns initState
    let stF := r.1
    let time1 := s.time + stF.turns
    match r.2 with
    | some e =>
      ({ store := s.store, time := time1, logLines := s.logLines ++ stF.events },
        Except.error e)
    | none =>
      let res := mkResult runId tid draw buyerConf sellerConf stF
      ({ store :=
           { runs := s.store.runs ++ [(runId, res)]
             manifest := mkManifestEntry res :: s.store.manifest }
         time := time1
         logLines := s.logLines ++ stF.events ++ [outcomeEvent stF] },
        Except.ok res)

/-! ### Tournament scheduler (`runTournament`, lines 234-317) -/

/-- The `MODELS` lookup table (lines 10-21). -/
def MODELS : List (String × String) :=
  [("OPUS_4_5", "claude-opus-4-5-20251101"),
   ("HAIKU_4_5", "claude-haiku-4-5-20251001"),
   ("SONNET_4_5", "claude-sonnet-4-5-20250929"),
   ("GEMINI_FLASH_PREVIEW", "gemini-3-flash-preview"),
   ("GEMINI_2_5_PRO", "gemini-2.5-pro"),
   ("GEMINI_2_5_FLASH", "gemini-2.5-flash"),
   ("GPT_5_2", "gpt-5.2"),
   ("GPT_5_1", "gpt-5.1"),
   ("GPT_5", "gpt-5"),
   ("GPT_5_MINI", "gpt-5-mini")]

/-- Remove the first occurrence of `pat` from a character list. -/
def removeFirst (pat : List Char) : List Char → List Char
  | [] => []
  | c :: cs =>
    if pat.isPrefixOf (c :: cs) then (c :: cs).drop pat.length
    else c :: removeFirst pat cs

/-- JavaScript `String.prototype.replace` with a string pattern and empty
replacement: remove the first occurrence only (`m.replace(' 4.5', '')`). -/
def replaceFirst (s pat : String) : String :=
  String.mk (removeFirst pat.toList s.toList)

def lookupModel (k : String) : Option String :=
  (MODELS.find? (fun p => p.1 == k)).map (fun p => p.2)

/-- Assignment `modelMap[m] = v` on a JavaScript object: overwrite the value
if the key exists, otherwise append (string keys keep insertion order). -/
def insertKey (map : List (String × String)) (k v : String) :
    List (String × String) :=
  if map.any (fun p => p.1 == k) then
    map.map (fun p => if p.1 == k then (k, v) else p)
  else map ++ [(k, v)]

/-- Lines 253-259: build `modelMap` from the selected aliases; unresolved
aliases pass through as raw identifiers. -/
def resolveModels (selected : List String) : List (String × String) :=
  selected.foldl
    (fun map m =>
      match lookupModel (replaceFirst m " 4.5") with
      | some v => insertKey map m v
      | none => insertKey map m m)
    []

/-- `modelMap[k]` for a key known to be present. -/
def modelVal (mm : List (String × String)) (k : String) : String :=
  ((mm.find? (fun p => p.1 == k)).map (fun p => p.2)).getD k

/-- The `try { await runMatch(...) } catch (e) { if aborted rethrow; log }`
blocks of lines 282-294 / 300-312: only the distinguished abort condition
escapes; other per-match failures are caught and scheduling continues. -/
def tryRunMatch (runId : String) (buyerConf sellerConf : AgentConf)
    (tid : Option String) (gen : Nat → Except String Reply) (ab : Option Nat)
    (scen : Nat → ScenarioDraw) (s : TState) : TState × Except String Unit :=
  match serverRunMatch runId buyerConf sellerConf tid gen ab scen s with
  | (s1, Except.ok _) => (s1, Except.ok ())
  | (s1, Except.error e) =>
    if e = abortedMsg then (s1, Except.error e) else (s1, Except.ok ())

/-- The inner `for (let j = i + 1; j < modelKeys.length; j++)` loop
(lines 275-313), over the list of remaining `j` indices: abort check at the
top of each iteration, match 1 (`m1` seller / `m2` buyer), abort check
between the two matches, match 2 with roles swapped.  A `break` is a normal
early `.ok` return; a rethrown abort is `.error`. -/
def jLoop (keys : List String) (mm : List (String × String))
    (tid : Option String) (gen : Nat → Except String Reply) (ab : Option Nat)
    (scen : Nat → ScenarioDraw) (i : Nat) :
    List Nat → TState → TState × Except String Unit
  | [], s => (s, Except.ok ())
  | j :: rest, s =>
    if jsAborted ab s.time then (s, Except.ok ())
    else
      let m1 := keys.getD i ""
      let m2 := keys.getD j ""
      match tryRunMatch (toString s.time ++ "_1")
          { name := m2, modelId := modelVal mm m2 }
          { name := m1, modelId := modelVal mm m1 } tid gen ab scen s with
      | (s1, Except.error e) => (s1, Except.error e)
      | (s1, Except.ok _) =>
        if jsAborted ab s1.time then (s1, Except.ok ())
        else
          match tryRunMatch (toString s1.time ++ "_2")
              { name := m1, modelId := modelVal mm m1 }
              { name := m2, modelId := modelVal mm m2 } tid gen ab scen s1 with
          | (s2, Except.error e) => (s2, Except.error e)
          | (s2, Except.ok _) => jLoop keys mm tid gen ab scen i rest s2

/-- The `for (let i = 0; ...)` loop (line 274), over the list of `i`
indices. -/
def iLoop (keys : List String) (mm : List (String × String))
    (tid : Option String) (gen : Nat → Except String Reply) (ab : Option Nat)
    (scen : Nat → ScenarioDraw) :
    List Nat → TState → TState × Except String Unit
  | [], s => (s, Except.ok ())
  | i :: rest, s =>
    match jLoop keys mm tid gen ab scen i
        (List.range' (i + 1) (keys.length - (i + 1))) s with
    | (s1, Except.error e) => (s1, Except.error e)
    | (s1, Except.ok _) => iLoop keys mm tid gen ab scen rest s1

/-- The `for (let r = 0; r < rounds; r++)` loop (lines 271-315), with the
abort check at the top of each round. -/
def rLoop (keys : List String) (mm : List (String × String))
    (tid : Option String) (gen : Nat → Except String Reply) (ab : Option Nat)
    (scen : Nat → ScenarioDraw) :
    Nat → TState → TState × Except String Unit
  | 0, s => (s, Except.ok ())
  | Nat.succ r, s =>
    if jsAborted ab s.time then (s, Except.ok ())
    else
      match iLoop keys mm tid gen ab scen (List.range keys.length) s with
      | (s1, Except.error e) => (s1, Except.error e)
      | (s1, Except.ok _) => rLoop keys mm tid gen ab scen r s1

/-- The options object of `runTournament` (the default roster of line 236
and the synthesized random tournament name of lines 263-267 are irrelevant
to the claims; the name oracle stands in for the random generator). -/
structure TournamentOptions where
  rounds : Nat
  models : List String
  tournamentName : Option String
deriving DecidableEq, Repr

/-- `runTournament` of `src/server/benchmark.js` (lines 234-317):
`rounds || 1`, alias resolution, and the three nested scheduling loops. -/
def runTournament (options : TournamentOptions)
    (gen : Nat → Except String Reply) (ab : Option Nat)
    (scen : Nat → ScenarioDraw) (randomName : String) (s : TState) :
    TState × Except String Unit :=
  let rounds := if options.rounds = 0 then 1 else options.rounds
  let mm := resolveModels options.models
  let keys := mm.map (fun p => p.1)
  let tid : Option String :=
    match options.tournamentName with
    | some n => if n = "" then some randomName else some n
    | none => some randomName
  rLoop keys mm tid gen ab scen rounds s

/-! ### The standalone CLI match runner (`src/unnamed/part_000`) -/

/-- Loop state of the CLI `runMatch` (part_000, lines 52-65): no
`lastOfferBy` tracking, no silence rule, no abort. -/
structure CliState where
  turns : Nat
  dealReached : Bool
  dealPrice : JsVal
  lastOffer : JsVal
  active : Role
  logs : List LogEntry
  events : List SysEvent
deriving DecidableEq, Repr

def cliInitState : CliState :=
  { turns := 0, dealReached := false, dealPrice := JsVal.jnull
    lastOffer := JsVal.jnull, active := Role.seller, logs := [], events := [] }

/-- JavaScript loose equality `==` on the offer value subset:
`undefined == null` is true, numbers compare by value. -/
def JsVal.looseEq : JsVal → JsVal → Bool
  | JsVal.undef, JsVal.undef => true
  | JsVal.undef, JsVal.jnull => true
  | JsVal.jnull, JsVal.undef => true
  | JsVal.jnull, JsVal.jnull => true
  | JsVal.num a, JsVal.num b => decide (a = b)
  | _, _ => false

/-- One iteration of the CLI loop body (part_000, lines 69-108): the deal
check is only `lastOffer !== null && response.offer == lastOffer` — there is
no "made by the other role" condition — and every turn is pushed to the
log. -/
def cliTurn (cfg : MatchNames) (response : Reply) (st : CliState) : CliState :=
  let st1 :=
    if response.deal then
      if st.lastOffer ≠ JsVal.jnull ∧ response.offer.looseEq st.lastOffer then
        { st with dealReached := true, dealPrice := response.offer }
      else
        { st with events :=
            st.events ++ [SysEvent.rejectedMismatch response.offer st.lastOffer] }
    else if response.offer ≠ JsVal.jnull then
      { st with lastOffer := response.offer }
    else st
  let dealFlag := if response.deal then st1.dealReached else response.deal
  { st1 with
    logs := st1.logs ++
      [{ turn := st.turns
         sender := activeName cfg st.active
         role := st.active
         content :=
           { thought := response.thought, message := response.message
             offer := response.offer, deal := dealFlag } }]
    active := swapActive st.active }

/-- The CLI `while (turns < maxTurns && !dealReached)` loop.  The script is
total: the CLI model has no abort signal. -/
def cliLoop (cfg : MatchNames) (script : Nat → Reply) :
    Nat → CliState → CliState
  | 0, st => st
  | Nat.succ fuel, st =>
    if st.turns < maxTurns ∧ st.dealReached = false then
      cliLoop cfg script fuel
        (cliTurn cfg (script st.turns) { st with turns := st.turns + 1 })
    else st

/-- Outcome of a CLI run: note the `-0.5` penalty defaults of part_000,
lines 111-112. -/
structure CliResult where
  sellerScore : Rat
  buyerScore : Rat
  dealReached : Bool
  dealPrice : JsVal
  turns : Nat
  logs : List LogEntry
deriving DecidableEq, Repr

/-- The CLI `runMatch` (part_000, lines 16-185): fixed scenario, the loop,
and the scoring with a `-0.5` penalty default for both sides, overwritten by
the deal formulas only when `dealReached && dealPrice` is truthy. -/
def cliRunMatch (cfg : MatchNames) (sellerEst buyerEst : Int)
    (script : Nat → Reply) : CliResult :=
  let st := cliLoop cfg script maxTurns cliInitState
  let sellerScore : Rat :=
    if st.dealReached = true ∧ st.dealPrice.truthy = true then
      (st.dealPrice.toRat - (sellerEst : Rat)) / (sellerEst : Rat)
    else -(1/2)
  let buyerScore : Rat :=
    if st.dealReached = true ∧ st.dealPrice.truthy = true then
      ((buyerEst : Rat) - st.dealPrice.toRat) / (buyerEst : Rat)
    else -(1/2)
  { sellerScore := sellerScore, buyerScore := buyerScore
    dealReached := st.dealReached, dealPrice := st.dealPrice
    turns := st.turns, logs := st.logs }

/-! ### Agent JSON parsing (`src/server/server.js` lines 260-278,
`src/benchmark-cli/agents.js` lines 81-100)

`JSON.parse` is a JavaScript builtin; it is modelled here by a recursive
descent parser over the JSON fragment the negotiation replies live in
(objects, arrays, strings without escape sequences, decimal numbers without
exponents, booleans, null).  Like `JSON.parse` it rejects trailing content
after the top-level value. -/

/-- A parsed JSON value. -/
inductive JVal where
  | jnull
  | jbool (b : Bool)
  | jnum (q : Rat)
  | jstr (s : String)
  | jarr (elems : List JVal)
  | jobj (fields : List (String × JVal))

/-- The brace characters, by code point. -/
def lbrace : Char := Char.ofNat 123
def rbrace : Char := Char.ofNat 125

def isWsChar (c : Char) : Bool :=
  c = ' ' ∨ c = '\n' ∨ c = '\t' ∨ c = '\r'

def skipWs : List Char → List Char
  | [] => []
  | c :: cs => if isWsChar c then skipWs cs else c :: cs

def isDigitChar (c : Char) : Bool := '0' ≤ c ∧ c ≤ '9'

def digitVal (c : Char) : Nat := c.toNat - 48

/-- Split a leading run of decimal digits off a character list. -/
def takeDigits : List Char → List Char × List Char
  | [] => ([], [])
  | c :: cs =>
    if isDigitChar c then
      let r := takeDigits cs
      (c :: r.1, r.2)
    else ([], c :: cs)

def digitsToNat (ds : List Char) : Nat :=
  ds.foldl (fun acc c => acc * 10 + digitVal c) 0

/-- Parse a JSON number (optional minus sign, integer part, optional
fractional part; exponents are outside the modelled fragment). -/
def parseNumber (cs : List Char) : Option (Rat × List Char) :=
  let (neg, cs1) :=
    match cs with
    | '-' :: rest => (true, rest)
    | _ => (false, cs)
  let (ds, cs2) := takeDigits cs1
  if ds = [] then none
  else
    let intPart : Rat := (digitsToNat ds : Nat)
    let (value, cs3) :=
      match cs2 with
      | '.' :: rest =>
        let (fs, rest2) := takeDigits rest
        if fs = [] then (intPart, cs2)
        else (intPart + (digitsToNat fs : Rat) / ((10 : Rat) ^ fs.length), rest2)
      | _ => (intPart, cs2)
    some (if neg then -value else value, cs3)

/-- Parse a JSON string body after the opening quote, up to the closing
quote.  Escape sequences are outside the modelled fragment, so a backslash
makes the parse fail. -/
def parseStringBody : List Char → Option (String × List Char)
  | [] => none
  | c :: cs =>
    if c = '"' then some ("", cs)
    else if c = '\\' then none
    else
      match parseStringBody cs with
      | some (s, rest) => some (String.mk (c :: s.toList), rest)
      | none => none

mutual

/-- Parse one JSON value (fuel-bounded recursive descent). -/
def parseJVal : Nat → List Char → Option (JVal × List Char)
  | 0, _ => none
  | Nat.succ fuel, cs =>
    match skipWs cs with
    | [] => none
    | c :: rest =>
      if c = lbrace then parseObjFields fuel rest true []
      else if c = '[' then parseArrElems fuel rest true []
      else if c = '"' then
        match parseStringBody rest with
        | some (s, rest2) => some (JVal.jstr s, rest2)
        | none => none
      else if "null".toList.isPrefixOf (c :: rest) then
        some (JVal.jnull, (c :: rest).drop 4)
      else if "true".toList.isPrefixOf (c :: rest) then
        some (JVal.jbool true, (c :: rest).drop 4)
      else if "false".toList.isPrefixOf (c :: rest) then
        some (JVal.jbool false, (c :: rest).drop 5)
      else
        match parseNumber (c :: rest) with
        | some (q, rest2) => some (JVal.jnum q, rest2)
        | none => none

/-- Parse the members of an object after the opening brace; `first` is true
before the first member has been read.  After a member, only `,` (another
member) or the closing brace may follow. -/
def parseObjFields (fuel : Nat) (cs : List Char) (first : Bool)
    (acc : List (String × JVal)) : Option (JVal × List Char) :=
  match fuel with
  | 0 => none
  | Nat.succ fuel =>
    match skipWs cs with
    | [] => none
    | c :: rest =>
      if c = rbrace then some (JVal.jobj acc.reverse, rest)
      else
        match
          (if first then some (c :: rest)
           else if c = ',' then some (skipWs rest) else none) with
        | none => none
        | some l =>
          match l with
          | '"' :: r2 =>
            (match parseStringBody r2 with
             | some (key, r3) =>
               (match skipWs r3 with
                | ':' :: r4 =>
                  (match parseJVal fuel r4 with
                   | some (v, r5) => parseObjFields fuel r5 false ((key, v) :: acc)
                   | none => none)
                | _ => none)
             | none => none)
          | _ => none

/-- Parse the elements of an array after the opening bracket. -/
def parseArrElems (fuel : Nat) (cs : List Char) (first : Bool)
    (acc : List JVal) : Option (JVal × List Char) :=
  match fuel with
  | 0 => none
  | Nat.succ fuel =>
    match skipWs cs with
    | [] => none
    | c :: rest =>
      if c = ']' then some (JVal.jarr acc.reverse, rest)
      else
        match
          (if first then some (c :: rest)
           else if c = ',' then some rest else none) with
        | none => none
        | some l =>
          match parseJVal fuel l with
          | some (v, r2) => parseArrElems fuel r2 false (v :: acc)
          | none => none

end

/-- `JSON.parse`: parse one value and reject trailing non-whitespace. -/
def jsonParse (s : String) : Option JVal :=
  match parseJVal (2 * s.length + 2) s.toList with
  | some (v, rest) => if skipWs rest = [] then some v else none
  | none => none

/-- Index of the first occurrence of `c`. -/
def idxOfFirst (c : Char) : List Char → Option Nat
  | [] => none
  | x :: xs =>
    if x = c then some 0
    else (idxOfFirst c xs).map (fun i => i + 1)

/-- Index of the last occurrence of `c`. -/
def idxOfLast (c : Char) (cs : List Char) : Option Nat :=
  (idxOfFirst c cs.reverse).map (fun i => cs.length - 1 - i)

/-- The match of the greedy regex `/\x7b[\s\S]*\x7d/` of
`text.match(...)` (server.js line 264, agents.js line 86): the substring
running from the first opening brace to the last closing brace, provided the
latter comes after the former. -/
def jsonMatchGreedy (s : String) : Option String :=
  let cs := s.toList
  match idxOfFirst lbrace cs, idxOfLast rbrace cs with
  | some i, some j =>
    if i < j then some (String.mk ((cs.drop i).take (j + 1 - i))) else none
  | _, _ => none

/-- Depth-counting scan for the block from an opening brace to its matching
closing brace (used only by the specification-side parse procedure below). -/
def scanBlock : Nat → List Char → List Char → Option (List Char)
  | _, _, [] => none
  | depth, acc, c :: cs =>
    if c = lbrace then scanBlock (depth + 1) (acc ++ [c]) cs
    else if c = rbrace then
      if depth = 1 then some (acc ++ [c])
      else scanBlock (depth - 1) (acc ++ [c]) cs
    else scanBlock depth (acc ++ [c]) cs

/-- The first top-level brace-delimited block of a string, by brace-depth
counting from the first opening brace. -/
def firstTopLevelBlock (s : String) : Option String :=
  let cs := s.toList
  match idxOfFirst lbrace cs with
  | some i => (scanBlock 0 [] (cs.drop i)).map String.mk
  | none => none

/-- The reply object the Agent layer hands to the engine, with each field
holding the dynamic value of the property access on the parsed data
(`none` models JavaScript `undefined` for a missing property). -/
structure AgentReply where
  thought : Option JVal
  message : Option JVal
  offer : Option JVal
  deal : Option JVal

/-- Property access `data[k]` on a parsed JSON value: on an object the value
of the last binding of the key (as `JSON.parse` keeps the last duplicate),
`undefined` otherwise. -/
def fieldOf (v : JVal) (k : String) : Option JVal :=
  match v with
  | JVal.jobj fields =>
    fields.foldl (fun acc p => if p.1 == k then some p.2 else acc) none
  | _ => none

/-- The reply built from successfully parsed data. -/
def replyOfData (v : JVal) : AgentReply :=
  { thought := fieldOf v "thought"
    message := fieldOf v "message"
    offer := fieldOf v "offer"
    deal := fieldOf v "deal" }

/-- The fallback reply substituted when parsing fails (server.js lines
272-277): `thought = "Failed to parse JSON output"`, `message` = the raw
text, `offer = null`, `deal = false`. -/
def fallbackReply (raw : String) : AgentReply :=
  { thought := some (JVal.jstr ("Failed to parse JSON output"))
    message := some (JVal.jstr raw)
    offer := some JVal.jnull
    deal := some (JVal.jbool false) }

/-- The parsing logic of `Agent.generateResponse` (server.js lines 260-278;
identical in agents.js lines 85-100): run the greedy brace regex first; if
it matches, `JSON.parse` the matched span, otherwise `JSON.parse` the whole
text; any parse failure is caught and yields the fallback reply.  The
function is total: malformed text never escapes as a thrown condition. -/
def agentParse (text : String) : AgentReply :=
  match jsonMatchGreedy text with
  | some m =>
    (match jsonParse m with
     | some v => replyOfData v
     | none => fallbackReply text)
  | none =>
    match jsonParse text with
    | some v => replyOfData v
    | none => fallbackReply text

/-- A single parse attempt against a chosen target string, falling back to
the fallback reply built from the raw text. -/
def parseAttempt (raw target : String) : AgentReply :=
  match jsonParse target with
  | some v => replyOfData v
  | none => fallbackReply raw

/-- The amended description of the Agent's parsing: one parse attempt whose
target is the greedy first-brace-to-last-brace span when one exists, and the
whole text otherwise. -/
def agentParseAmended (text : String) : AgentReply :=
  parseAttempt text ((jsonMatchGreedy text).getD text)

/-- The parse procedure as the claim words it (direct parse of the whole
text first; only if that fails, extract the first top-level brace block and
parse that; fallback if both fail).  This definition follows the claim's
words and is compared against `agentParse`, which is translated from the
source. -/
def agentParseSpec (text : String) : AgentReply :=
  match jsonParse text with
  | some v => replyOfData v
  | none =>
    match (firstTopLevelBlock text).bind (fun b => jsonParse b) with
    | some v => replyOfData v
    | none => fallbackReply text

/-! ### Derived predicates and specification-side schedules -/

/-- The acceptance condition of the deal-claim validation (lines 102-104 of
`benchmark.js`): a pending offer exists (`lastOffer !== null`), it was made
by the other role, and the claimed offer strictly equals it. -/
def dealAccepted (response : Reply) (st : LoopState) : Prop :=
  st.lastOffer ≠ JsVal.jnull ∧ st.lastOfferBy ≠ some st.active ∧
    response.offer = st.lastOffer

instance (response : Reply) (st : LoopState) : Decidable (dealAccepted response st) := by
  unfold dealAccepted; infer_instance

/-- `new` extends `old` by appended run files and prepended manifest
entries; already-persisted records are untouched. -/
def storeExtends (old new : Store) : Prop :=
  (∃ l, new.runs = old.runs ++ l) ∧ (∃ l, new.manifest = l ++ old.manifest)

/-- The (seller name, buyer name) pairs of a list of persisted runs, in the
order they were written. -/
def schedOf (runs : List (String × MatchResult)) : List (String × String) :=
  runs.map (fun p => (p.2.seller.name, p.2.buyer.name))

/-- The specification's description of one round of scheduling: for every
pair `i < j` of roster indices, first `keys[i]`-as-seller vs
`keys[j]`-as-buyer, then the roles swapped. -/
def pairSchedule (keys : List String) : List (String × String) :=
  (List.range keys.length).flatMap (fun i =>
    (List.range' (i + 1) (keys.length - (i + 1))).flatMap (fun j =>
      [(keys.getD i "", keys.getD j ""), (keys.getD j "", keys.getD i "")]))

/-- The specification's description of a full tournament schedule:
`rounds` repetitions of the round-robin-with-role-swap pairing. -/
def roundRobin (keys : List String) : Nat → List (String × String)
  | 0 => []
  | Nat.succ r => pairSchedule keys ++ roundRobin keys r

/-- The resolved roster keys of a tournament. -/
def tournamentKeys (options : TournamentOptions) : List String :=
  (resolveModels options.models).map (fun p => p.1)

/-! ### Concrete fixtures used by counterexamples and witnesses -/

/-- A reply with no offer (the shape of the Agent's fallback reply). -/
def nullReply : Reply :=
  { thought := "t", message := "m", offer := JsVal.jnull, deal := false, usage := none }

/-- A reply whose `offer` field is absent (`undefined`): the parsed model
output simply lacked the key. -/
def undefReply : Reply :=
  { thought := "t", message := "m", offer := JsVal.undef, deal := false, usage := none }

/-- A finite reply script as a total generation oracle. -/
def scriptGen (rs : List Reply) : Nat → Except String Reply :=
  fun n => Except.ok (rs.getD n nullReply)

def confS : AgentConf := { name := "S", modelId := "model-s" }

def confB : AgentConf := { name := "B", modelId := "model-b" }

def names0 : MatchNames := { sellerName := "S", buyerName := "B" }

def scen0 : Nat → ScenarioDraw :=
  fun _ => { item := "W", trueValue := 1000, sellerEst := 100, buyerEst := 100 }

def ts0 : TState := { store := { runs := [], manifest := [] }, time := 0, logLines := [] }

/-- A throwaway result used only to totalize the projection below. -/
def dummyResult : MatchResult :=
  { id := "", tournament := none, item := "", trueValue := 0
    seller := { name := "", model := "", estimate := 0, score := 0, thinkingTokens := 0 }
    buyer := { name := "", model := "", estimate := 0, score := 0, thinkingTokens := 0 }
    dealReached := false, dealPrice := JsVal.jnull, turns := 0, logs := [] }

/-- The payload of a successful match, used to state closed facts about
concrete runs. -/
def theResult : Except String MatchResult → MatchResult
  | Except.ok res => res
  | Except.error _ => dummyResult

/-- Scenario: the seller proposes `0`, the buyer accepts it (`deal:true`,
`offer:0`). -/
def zeroDealGen : Nat → Except String Reply := scriptGen
  [{ thought := "t", message := "m", offer := JsVal.num 0, deal := false, usage := none },
   { thought := "t", message := "m", offer := JsVal.num 0, deal := true, usage := none }]

/-- Scenario: the seller proposes `120`, the buyer accepts it. -/
def dealGen : Nat → Except String Reply := scriptGen
  [{ thought := "t", message := "m", offer := JsVal.num 120, deal := false, usage := some 7 },
   { thought := "t", message := "m", offer := JsVal.num 120, deal := true, usage := some 5 }]

/-- Scenario: a silent turn, then a `deal:true` claim with a null offer and
no pending offer to accept — the claim is rejected and the silence rule
fires on the same turn. -/
def rejectSilenceGen : Nat → Except String Reply := scriptGen
  [nullReply,
   { thought := "t", message := "m", offer := JsVal.jnull, deal := true, usage := none }]

/-- Scenario: every reply carries an absent (`undefined`) offer. -/
def undefGen : Nat → Except String Reply := fun _ => Except.ok undefReply

/-- Scenario: every reply carries a null offer and no deal claim. -/
def silentGen : Nat → Except String Reply := fun _ => Except.ok nullReply

/-- A two-model tournament configuration. -/
def opts2 : TournamentOptions :=
  { rounds := 1, models := ["A", "B"], tournamentName := some "T" }

/-- A throwaway log entry used only to totalize `List.getD` in closed
statements about concrete runs. -/
def dummyEntry : LogEntry :=
  { turn := 0, sender := "", role := Role.seller
    content := { thought := "", message := "", offer := JsVal.jnull, deal := false } }

/-- The raw model text refuting the claimed parse order: a well-formed JSON
object followed by a stray closing brace. -/
def ex9 : String := "\x7b\"deal\":false\x7d \x7d"

/-! ## Helper lemmas -/

theorem stepFinish_turns (cfg : MatchNames) (response : Reply) (st : LoopState)
    (v : DealCheck) (lo : JsVal) (lob : Option Role) (cn : Nat) :
    (stepFinish cfg response st v lo lob cn).turns = st.turns := by
  unfold stepFinish addTokens
  cases response.usage <;> [rfl; (cases st.active <;> rfl)]

theorem stepFinish_dealReached (cfg : MatchNames) (response : Reply)
    (st : LoopState) (v : DealCheck) (lo : JsVal) (lob : Option Role) (cn : Nat) :
    (stepFinish cfg response st v lo lob cn).dealReached = v.dealReached := by
  unfold stepFinish addTokens
  cases response.usage <;> [rfl; (cases st.active <;> rfl)]

theorem stepFinish_dealPrice (cfg : MatchNames) (response : Reply)
    (st : LoopState) (v : DealCheck) (lo : JsVal) (lob : Option Role) (cn : Nat) :
    (stepFinish cfg response st v lo lob cn).dealPrice = v.dealPrice := by
  unfold stepFinish addTokens
  cases response.usage <;> [rfl; (cases st.active <;> rfl)]

theorem stepFinish_lastOffer (cfg : MatchNames) (response : Reply)
    (st : LoopState) (v : DealCheck) (lo : JsVal) (lob : Option Role) (cn : Nat) :
    (stepFinish cfg response st v lo lob cn).lastOffer = lo := by
  unfold stepFinish addTokens
  cases response.usage <;> [rfl; (cases st.active <;> rfl)]

theorem stepFinish_lastOfferBy (cfg : MatchNames) (response : Reply)
    (st : LoopState) (v : DealCheck) (lo : JsVal) (lob : Option Role) (cn : Nat) :
    (stepFinish cfg response st v lo lob cn).lastOfferBy = lob := by
  unfold stepFinish addTokens
  cases response.usage <;> [rfl; (cases st.active <;> rfl)]

theorem stepFinish_consecutiveNulls (cfg : MatchNames) (response : Reply)
    (st : LoopState) (v : DealCheck) (lo : JsVal) (lob : Option Role) (cn : Nat) :
    (stepFinish cfg response st v lo lob cn).consecutiveNulls = cn := by
  unfold stepFinish addTokens
  cases response.usage <;> [rfl; (cases st.active <;> rfl)]

theorem stepFinish_logs (cfg : MatchNames) (response : Reply) (st : LoopState)
    (v : DealCheck) (lo : JsVal) (lob : Option Role) (cn : Nat) :
    (stepFinish cfg response st v lo lob cn).logs =
      st.logs ++ [mkLogEntry cfg st response v.deal] := by
  unfold stepFinish addTokens
  cases response.usage <;> [rfl; (cases st.active <;> rfl)]

theorem stepFinish_events (cfg : MatchNames) (response : Reply) (st : LoopState)
    (v : DealCheck) (lo : JsVal) (lob : Option Role) (cn : Nat) :
    (stepFinish cfg response st v lo lob cn).events = v.events := by
  unfold stepFinish addTokens
  cases response.usage <;> [rfl; (cases st.active <;> rfl)]

theorem stepFinish_active (cfg : MatchNames) (response : Reply) (st : LoopState)
    (v : DealCheck) (lo : JsVal) (lob : Option Role) (cn : Nat) :
    (stepFinish cfg response st v lo lob cn).active = swapActive st.active := by
  unfold stepFinish addTokens
  cases response.usage <;> [rfl; (cases st.active <;> rfl)]

theorem range'_one_concat (s n : Nat) :
    List.range' s (n + 1) = List.range' s n ++ [s + n] := by
  simpa using @List.range'_concat 1 s n

/-- While no deal has been reached, the (possibly downgraded) `deal` flag of
the validation outcome coincides with its `dealReached` flag: a rejected or
absent claim leaves `deal = false`, an accepted one sets both. -/
theorem validateDeal_deal_eq (response : Reply) (st : LoopState)
    (h : st.dealReached = false) :
    (validateDeal response st).deal = (validateDeal response st).dealReached := by
  unfold validateDeal
  split_ifs <;> simp_all

/-- A `break` of the silence rule pushes no log entry, keeps the turn
counter, and never carries a deal. -/
theorem turnStep_halted_inv (cfg : MatchNames) (response : Reply)
    (st st1 : LoopState) (h : turnStep cfg response st = TurnOut.halted st1) :
    st1.logs = st.logs ∧ st1.turns = st.turns ∧ st1.dealReached = false ∧
    st1.events = (validateDeal response st).events ++ [SysEvent.silenceEnd] := by
  unfold turnStep at h
  by_cases hv : (validateDeal response st).dealReached = false
  · rw [if_pos hv] at h
    split_ifs at h with h1 h2 <;> cases h <;> exact ⟨rfl, rfl, hv, rfl⟩
  · rw [if_neg hv] at h
    cases h

/-- A completed loop iteration pushes exactly one entry, carrying the
validated `deal` flag, and keeps the turn counter. -/
theorem turnStep_stepped_inv (cfg : MatchNames) (response : Reply)
    (st st1 : LoopState) (h : turnStep cfg response st = TurnOut.stepped st1) :
    st1.logs = st.logs ++
        [mkLogEntry cfg st response (validateDeal response st).deal] ∧
    st1.turns = st.turns ∧
    st1.dealReached = (validateDeal response st).dealReached := by
  unfold turnStep at h
  by_cases hv : (validateDeal response st).dealReached = false
  · rw [if_pos hv] at h
    split_ifs at h with h1 h2 <;> cases h <;>
      exact ⟨stepFinish_logs _ _ _ _ _ _ _, stepFinish_turns _ _ _ _ _ _ _,
        stepFinish_dealReached _ _ _ _ _ _ _⟩
  · rw [if_neg hv] at h
    cases h
    exact ⟨stepFinish_logs _ _ _ _ _ _ _, stepFinish_turns _ _ _ _ _ _ _,
      stepFinish_dealReached _ _ _ _ _ _ _⟩

/-- A state that has reached a deal is terminal: the loop returns it
unchanged (the `while` condition fails). -/
theorem runLoop_dealReached (cfg : MatchNames) (gen : Nat → Except String Reply)
    (ab : Option Nat) (t0 fuel : Nat) (st : LoopState)
    (h : st.dealReached = true) :
    runLoop cfg gen ab t0 fuel st = (st, none) := by
  cases fuel with
  | zero => rfl
  | succ fuel => unfold runLoop; simp [h]

/-- Unfolding equations for one iteration of the loop. -/
theorem runLoop_succ_aborted (cfg : MatchNames) (gen : Nat → Except String Reply)
    (ab : Option Nat) (t0 fuel : Nat) (st : LoopState)
    (hc : st.turns < maxTurns ∧ st.dealReached = false)
    (habt : jsAborted ab (t0 + st.turns) = true) :
    runLoop cfg gen ab t0 (fuel + 1) st = (st, some abortedMsg) := by
  unfold runLoop
  rw [if_pos hc, if_pos habt]

theorem runLoop_succ_genError (cfg : MatchNames) (gen : Nat → Except String Reply)
    (ab : Option Nat) (t0 fuel : Nat) (st : LoopState) (e : String)
    (hc : st.turns < maxTurns ∧ st.dealReached = false)
    (habt : jsAborted ab (t0 + st.turns) = false)
    (hg : gen (t0 + st.turns) = Except.error e) :
    runLoop cfg gen ab t0 (fuel + 1) st =
      ({ st with turns := st.turns + 1 }, some e) := by
  unfold runLoop
  rw [if_pos hc, if_neg (by simp [habt]), hg]

theorem runLoop_succ_halted (cfg : MatchNames) (gen : Nat → Except String Reply)
    (ab : Option Nat) (t0 fuel : Nat) (st st1 : LoopState) (response : Reply)
    (hc : st.turns < maxTurns ∧ st.dealReached = false)
    (habt : jsAborted ab (t0 + st.turns) = false)
    (hg : gen (t0 + st.turns) = Except.ok response)
    (hts : turnStep cfg response { st with turns := st.turns + 1 } =
      TurnOut.halted st1) :
    runLoop cfg gen ab t0 (fuel + 1) st = (st1, none) := by
  unfold runLoop
  rw [if_pos hc, if_neg (by simp [habt]), hg]
  dsimp only
  rw [hts]

theorem runLoop_succ_stepped (cfg : MatchNames) (gen : Nat → Except String Reply)
    (ab : Option Nat) (t0 fuel : Nat) (st st1 : LoopState) (response : Reply)
    (hc : st.turns < maxTurns ∧ st.dealReached = false)
    (habt : jsAborted ab (t0 + st.turns) = false)
    (hg : gen (t0 + st.turns) = Except.ok response)
    (hts : turnStep cfg response { st with turns := st.turns + 1 } =
      TurnOut.stepped st1) :
    runLoop cfg gen ab t0 (fuel + 1) st = runLoop cfg gen ab t0 fuel st1 := by
  conv_lhs => unfold runLoop
  rw [if_pos hc, if_neg (by simp [habt]), hg]
  dsimp only
  rw [hts]

theorem runLoop_stop (cfg : MatchNames) (gen : Nat → Except String Reply)
    (ab : Option Nat) (t0 fuel : Nat) (st : LoopState)
    (hc : ¬ (st.turns < maxTurns ∧ st.dealReached = false)) :
    runLoop cfg gen ab t0 fuel st = (st, none) := by
  cases fuel with
  | zero => rfl
  | succ fuel => unfold runLoop; rw [if_neg hc]

/-- The standing sender-format invariant of log entries. -/
def senderOk (cfg : MatchNames) (e : LogEntry) : Prop :=
  e.sender = activeName cfg e.role ++ " (" ++ roleName e.role ++ ")"

/-- The main log invariant of the match loop: turn indices of logged
entries are exactly `1, 2, …, length`; the log length equals the turn
counter except when the loop broke out of the silence rule (where the
terminating turn is counted but not logged); every entry carries the
sender in `name (role)` format; all entries but possibly the last carry
`deal = false`; and if no deal was reached, every entry carries
`deal = false`. -/
theorem runLoop_log_invariant (cfg : MatchNames)
    (gen : Nat → Except String Reply) (ab : Option Nat) (t0 : Nat) :
    ∀ (fuel : Nat) (st : LoopState),
      st.dealReached = false →
      st.logs.map (fun e => e.turn) = List.range' 1 st.logs.length →
      st.logs.length = st.turns →
      (∀ e ∈ st.logs, senderOk cfg e) →
      (∀ e ∈ st.logs, e.content.deal = false) →
      ((runLoop cfg gen ab t0 fuel st).1.logs.map (fun e => e.turn) =
          List.range' 1 (runLoop cfg gen ab t0 fuel st).1.logs.length ∧
        ((runLoop cfg gen ab t0 fuel st).1.logs.length =
            (runLoop cfg gen ab t0 fuel st).1.turns ∨
          (runLoop cfg gen ab t0 fuel st).1.logs.length + 1 =
            (runLoop cfg gen ab t0 fuel st).1.turns) ∧
        (∀ e ∈ (runLoop cfg gen ab t0 fuel st).1.logs, senderOk cfg e) ∧
        (∀ e ∈ (runLoop cfg gen ab t0 fuel st).1.logs.dropLast,
          e.content.deal = false) ∧
        ((runLoop cfg gen ab t0 fuel st).1.dealReached = false →
          ∀ e ∈ (runLoop cfg gen ab t0 fuel st).1.logs,
            e.content.deal = false)) := by
  intro fuel
  induction fuel with
  | zero =>
    intro st h0 h1 h2 h3 h4
    exact ⟨h1, Or.inl h2, h3, fun e he => h4 e (List.dropLast_subset _ he),
      fun _ => h4⟩
  | succ fuel ih =>
    intro st h0 h1 h2 h3 h4
    by_cases hc : st.turns < maxTurns ∧ st.dealReached = false
    · cases habt : jsAborted ab (t0 + st.turns) with
      | true =>
        rw [runLoop_succ_aborted cfg gen ab t0 fuel st hc habt]
        exact ⟨h1, Or.inl h2, h3, fun e he => h4 e (List.dropLast_subset _ he),
          fun _ => h4⟩
      | false =>
        cases hg : gen (t0 + st.turns) with
        | error e =>
          rw [runLoop_succ_genError cfg gen ab t0 fuel st e hc habt hg]
          exact ⟨h1, Or.inr (by simpa using h2), h3,
            fun e he => h4 e (List.dropLast_subset _ he), fun _ => h4⟩
        | ok response =>
          cases hts : turnStep cfg response { st with turns := st.turns + 1 } with
          | halted st1 =>
            rw [runLoop_succ_halted cfg gen ab t0 fuel st st1 response hc habt hg hts]
            obtain ⟨hl, ht, hd, -⟩ :=
              turnStep_halted_inv cfg response _ st1 hts
            simp only at hl ht
            rw [hl, ht] at *
            exact ⟨h1, Or.inr (by simpa using h2), h3,
              fun e he => h4 e (List.dropLast_subset _ he), fun _ => h4⟩
          | stepped st1 =>
            rw [runLoop_succ_stepped cfg gen ab t0 fuel st st1 response hc habt hg hts]
            obtain ⟨hl, ht, hd⟩ := turnStep_stepped_inv cfg response _ st1 hts
            simp only at hl ht hd
            have hdeq : (validateDeal response { st with turns := st.turns + 1 }).deal =
                (validateDeal response { st with turns := st.turns + 1 }).dealReached :=
              validateDeal_deal_eq response _ (by simpa using h0)
            have hmap : st1.logs.map (fun e => e.turn) =
                List.range' 1 st1.logs.length := by
              rw [hl]
              simp only [List.map_append, List.length_append, List.map_cons,
                List.map_nil, List.length_cons, List.length_nil]
              rw [h1, h2]
              rw [range'_one_concat]
              simp [mkLogEntry, Nat.add_comm]
            have hlen : st1.logs.length = st1.turns := by
              rw [hl, ht]
              simp [h2]
            have hsend : ∀ e ∈ st1.logs, senderOk cfg e := by
              rw [hl]
              intro e he
              rcases List.mem_append.mp he with hin | hin
              · exact h3 e hin
              · rcases List.mem_singleton.mp hin with rfl
                rfl
            cases hdr1 : st1.dealReached with
            | false =>
              have hflag : ∀ e ∈ st1.logs, e.content.deal = false := by
                rw [hl]
                intro e he
                rcases List.mem_append.mp he with hin | hin
                · exact h4 e hin
                · rcases List.mem_singleton.mp hin with rfl
                  show (validateDeal response _).deal = false
                  rw [hdeq, ← hd, hdr1]
              exact ih st1 hdr1 hmap hlen hsend hflag
            | true =>
              rw [runLoop_dealReached cfg gen ab t0 fuel st1 hdr1]
              refine ⟨hmap, Or.inl hlen, hsend, ?_, ?_⟩
              · rw [hl]
                rw [List.dropLast_concat]
                exact h4
              · intro hcontra
                rw [hdr1] at hcontra
                cases hcontra
    · rw [runLoop_stop cfg gen ab t0 (fuel + 1) st hc]
      exact ⟨h1, Or.inl h2, h3, fun e he => h4 e (List.dropLast_subset _ he),
        fun _ => h4⟩

/-- Inversion for a successful `serverRunMatch`: the returned record is the
`mkResult` of the final loop state, and the loop ended normally. -/
theorem serverRunMatch_ok_inv (runId : String) (bc sc : AgentConf)
    (tid : Option String) (gen : Nat → Except String Reply) (ab : Option Nat)
    (scen : Nat → ScenarioDraw) (s : TState) (res : MatchResult)
    (hok : (serverRunMatch runId bc sc tid gen ab scen s).2 = Except.ok res) :
    res = mkResult runId tid (scen s.time) bc sc
      (runLoop { sellerName := sc.name, buyerName := bc.name } gen ab s.time
        maxTurns initState).1 ∧
    (runLoop { sellerName := sc.name, buyerName := bc.name } gen ab s.time
        maxTurns initState).2 = none := by
  unfold serverRunMatch at hok
  cases hab : jsAborted ab s.time with
  | true => rw [hab] at hok; simp at hok
  | false =>
    rw [hab] at hok
    simp only [Bool.false_eq_true, if_false] at hok
    split at hok
    · simp at hok
    · simp only [Except.ok.injEq] at hok
      exact ⟨hok.symm, by assumption⟩

/-- Only the distinguished abort condition escapes the per-match
`try`/`catch`: any other failure is caught and scheduling continues. -/
theorem tryRunMatch_error (runId : String) (bc sc : AgentConf)
    (tid : Option String) (gen : Nat → Except String Reply) (ab : Option Nat)
    (scen : Nat → ScenarioDraw) (s s1 : TState) (e : String)
    (h : tryRunMatch runId bc sc tid gen ab scen s = (s1, Except.error e)) :
    e = abortedMsg := by
  unfold tryRunMatch at h
  split at h
  · simp at h
  · split_ifs at h with he
    · rw [Prod.mk.injEq] at h
      obtain ⟨-, h2⟩ := h
      cases h2
      exact he
    · simp at h

/-- A failed `runMatch` (abort or provider error) leaves the store exactly
as it was: the throw happens before any persistence. -/
theorem serverRunMatch_error_store (runId : String) (bc sc : AgentConf)
    (tid : Option String) (gen : Nat → Except String Reply) (ab : Option Nat)
    (scen : Nat → ScenarioDraw) (s : TState) (e : String)
    (h : (serverRunMatch runId bc sc tid gen ab scen s).2 = Except.error e) :
    (serverRunMatch runId bc sc tid gen ab scen s).1.store = s.store := by
  unfold serverRunMatch at h ⊢
  split_ifs with hab
  · rfl
  · dsimp only at h ⊢
    cases hr : (runLoop { sellerName := sc.name, buyerName := bc.name } gen ab
        s.time maxTurns initState).2 with
    | some e2 => rfl
    | none => rw [hr, if_neg hab] at h; simp at h

/-- A successful `runMatch` appends exactly one run file and prepends
exactly one manifest entry. -/
theorem serverRunMatch_ok_store (runId : String) (bc sc : AgentConf)
    (tid : Option String) (gen : Nat → Except String Reply) (ab : Option Nat)
    (scen : Nat → ScenarioDraw) (s : TState) (res : MatchResult)
    (h : (serverRunMatch runId bc sc tid gen ab scen s).2 = Except.ok res) :
    (serverRunMatch runId bc sc tid gen ab scen s).1.store.runs =
      s.store.runs ++ [(runId, res)] ∧
    (serverRunMatch runId bc sc tid gen ab scen s).1.store.manifest =
      mkManifestEntry res :: s.store.manifest := by
  unfold serverRunMatch at h ⊢
  split_ifs with hab
  · rw [if_pos hab] at h; simp at h
  · dsimp only at h ⊢
    cases hr : (runLoop { sellerName := sc.name, buyerName := bc.name } gen ab
        s.time maxTurns initState).2 with
    | some e2 => rw [hr, if_neg hab] at h; simp at h
    | none =>
      rw [hr, if_neg hab] at h
      simp only [Except.ok.injEq] at h
      subst h
      exact ⟨rfl, rfl⟩

theorem storeExtends_refl (st : Store) : storeExtends st st :=
  ⟨⟨[], (List.append_nil _).symm⟩, ⟨[], (List.nil_append _).symm⟩⟩

theorem storeExtends_trans (a b c : Store) (h1 : storeExtends a b)
    (h2 : storeExtends b c) : storeExtends a c := by
  obtain ⟨⟨l1, hl1⟩, ⟨m1, hm1⟩⟩ := h1
  obtain ⟨⟨l2, hl2⟩, ⟨m2, hm2⟩⟩ := h2
  exact ⟨⟨l1 ++ l2, by rw [hl2, hl1, List.append_assoc]⟩,
    ⟨m2 ++ m1, by rw [hm2, hm1, List.append_assoc]⟩⟩

theorem serverRunMatch_storeExtends (runId : String) (bc sc : AgentConf)
    (tid : Option String) (gen : Nat → Except String Reply) (ab : Option Nat)
    (scen : Nat → ScenarioDraw) (s : TState) :
    storeExtends s.store (serverRunMatch runId bc sc tid gen ab scen s).1.store := by
  cases h : (serverRunMatch runId bc sc tid gen ab scen s).2 with
  | error e =>
    rw [serverRunMatch_error_store runId bc sc tid gen ab scen s e h]
    exact storeExtends_refl _
  | ok res =>
    obtain ⟨h1, h2⟩ := serverRunMatch_ok_store runId bc sc tid gen ab scen s res h
    exact ⟨⟨[(runId, res)], h1⟩, ⟨[mkManifestEntry res], h2⟩⟩

theorem tryRunMatch_storeExtends (runId : String) (bc sc : AgentConf)
    (tid : Option String) (gen : Nat → Except String Reply) (ab : Option Nat)
    (scen : Nat → ScenarioDraw) (s : TState) :
    storeExtends s.store (tryRunMatch runId bc sc tid gen ab scen s).1.store := by
  have h := serverRunMatch_storeExtends runId bc sc tid gen ab scen s
  unfold tryRunMatch
  split
  · next s1 r heq => rw [heq] at h; exact h
  · next s1 e heq =>
    rw [heq] at h
    split_ifs <;> exact h

theorem jLoop_storeExtends (keys : List String) (mm : List (String × String))
    (tid : Option String) (gen : Nat → Except String Reply) (ab : Option Nat)
    (scen : Nat → ScenarioDraw) (i : Nat) :
    ∀ (js : List Nat) (s : TState),
      storeExtends s.store (jLoop keys mm tid gen ab scen i js s).1.store := by
  intro js
  induction js with
  | nil => intro s; exact storeExtends_refl _
  | cons j rest ih =>
    intro s
    unfold jLoop
    split_ifs with habt
    · exact storeExtends_refl _
    · have h1 := tryRunMatch_storeExtends (toString s.time ++ "_1")
        { name := keys.getD j "", modelId := modelVal mm (keys.getD j "") }
        { name := keys.getD i "", modelId := modelVal mm (keys.getD i "") }
        tid gen ab scen s
      dsimp only
      split
      · next s1 e heq => rw [heq] at h1; exact h1
      · next s1 u heq =>
        rw [heq] at h1
        split_ifs with habt2
        · exact h1
        · have h2 := tryRunMatch_storeExtends (toString s1.time ++ "_2")
            { name := keys.getD i "", modelId := modelVal mm (keys.getD i "") }
            { name := keys.getD j "", modelId := modelVal mm (keys.getD j "") }
            tid gen ab scen s1
          split
          · next s2 e heq2 =>
            rw [heq2] at h2
            exact storeExtends_trans _ _ _ h1 h2
          · next s2 u2 heq2 =>
            rw [heq2] at h2
            exact storeExtends_trans _ _ _ (storeExtends_trans _ _ _ h1 h2) (ih s2)

theorem iLoop_storeExtends (keys : List String) (mm : List (String × String))
    (tid : Option String) (gen : Nat → Except String Reply) (ab : Option Nat)
    (scen : Nat → ScenarioDraw) :
    ∀ (is : List Nat) (s : TState),
      storeExtends s.store (iLoop keys mm tid gen ab scen is s).1.store := by
  intro is
  induction is with
  | nil => intro s; exact storeExtends_refl _
  | cons i rest ih =>
    intro s
    unfold iLoop
    have h1 := jLoop_storeExtends keys mm tid gen ab scen i
      (List.range' (i + 1) (keys.length - (i + 1))) s
    split
    · next s1 e heq => rw [heq] at h1; exact h1
    · next s1 u heq =>
      rw [heq] at h1
      exact storeExtends_trans _ _ _ h1 (ih s1)

theorem rLoop_storeExtends (keys : List String) (mm : List (String × String))
    (tid : Option String) (gen : Nat → Except String Reply) (ab : Option Nat)
    (scen : Nat → ScenarioDraw) :
    ∀ (rounds : Nat) (s : TState),
      storeExtends s.store (rLoop keys mm tid gen ab scen rounds s).1.store := by
  intro rounds
  induction rounds with
  | zero => intro s; exact storeExtends_refl _
  | succ r ih =>
    intro s
    unfold rLoop
    split_ifs with habt
    · exact storeExtends_refl _
    · have h1 := iLoop_storeExtends keys mm tid gen ab scen
        (List.range keys.length) s
      split
      · next s1 e heq => rw [heq] at h1; exact h1
      · next s1 u heq =>
        rw [heq] at h1
        exact storeExtends_trans _ _ _ h1 (ih s1)

theorem runTournament_storeExtends (options : TournamentOptions)
    (gen : Nat → Except String Reply) (ab : Option Nat)
    (scen : Nat → ScenarioDraw) (rn : String) (s : TState) :
    storeExtends s.store (runTournament options gen ab scen rn s).1.store := by
  unfold runTournament
  exact rLoop_storeExtends _ _ _ gen ab scen _ s

/-- Only the distinguished abort condition ever escapes the scheduling
loops. -/
theorem jLoop_error (keys : List String) (mm : List (String × String))
    (tid : Option String) (gen : Nat → Except String Reply) (ab : Option Nat)
    (scen : Nat → ScenarioDraw) (i : Nat) :
    ∀ (js : List Nat) (s s1 : TState) (e : String),
      jLoop keys mm tid gen ab scen i js s = (s1, Except.error e) →
      e = abortedMsg := by
  intro js
  induction js with
  | nil => intro s s1 e h; simp [jLoop] at h
  | cons j rest ih =>
    intro s s1 e h
    unfold jLoop at h
    split_ifs at h with habt
    · simp at h
    · dsimp only at h
      split at h
      · next s2 e2 heq =>
        rw [Prod.mk.injEq] at h
        obtain ⟨-, h2⟩ := h
        cases h2
        exact tryRunMatch_error _ _ _ tid gen ab scen s s2 _ heq
      · next s2 u heq =>
        split_ifs at h with habt2
        · simp at h
        · split at h
          · next s3 e3 heq2 =>
            rw [Prod.mk.injEq] at h
            obtain ⟨-, h2⟩ := h
            cases h2
            exact tryRunMatch_error _ _ _ tid gen ab scen s2 s3 _ heq2
          · next s3 u2 heq2 => exact ih s3 s1 e h

theorem iLoop_error (keys : List String) (mm : List (String × String))
    (tid : Option String) (gen : Nat → Except String Reply) (ab : Option Nat)
    (scen : Nat → ScenarioDraw) :
    ∀ (is : List Nat) (s s1 : TState) (e : String),
      iLoop keys mm tid gen ab scen is s = (s1, Except.error e) →
      e = abortedMsg := by
  intro is
  induction is with
  | nil => intro s s1 e h; simp [iLoop] at h
  | cons i rest ih =>
    intro s s1 e h
    unfold iLoop at h
    split at h
    · next s2 e2 heq =>
      rw [Prod.mk.injEq] at h
      obtain ⟨-, h2⟩ := h
      cases h2
      exact jLoop_error keys mm tid gen ab scen i _ s s2 _ heq
    · next s2 u heq => exact ih s2 s1 e h

theorem rLoop_error (keys : List String) (mm : List (String × String))
    (tid : Option String) (gen : Nat → Except String Reply) (ab : Option Nat)
    (scen : Nat → ScenarioDraw) :
    ∀ (rounds : Nat) (s s1 : TState) (e : String),
      rLoop keys mm tid gen ab scen rounds s = (s1, Except.error e) →
      e = abortedMsg := by
  intro rounds
  induction rounds with
  | zero => intro s s1 e h; simp [rLoop] at h
  | succ r ih =>
    intro s s1 e h
    unfold rLoop at h
    split_ifs at h with habt
    · simp at h
    · split at h
      · next s2 e2 heq =>
        rw [Prod.mk.injEq] at h
        obtain ⟨-, h2⟩ := h
        cases h2
        exact iLoop_error keys mm tid gen ab scen _ s s2 _ heq
      · next s2 u heq => exact ih s2 s1 e h

/-- A cancellation signal that is already set when `runTournament` is
entered stops all scheduling at the first checkpoint and returns cleanly. -/
theorem runTournament_abortedAtEntry (options : TournamentOptions)
    (gen : Nat → Except String Reply) (ab : Option Nat)
    (scen : Nat → ScenarioDraw) (rn : String) (s : TState)
    (h : jsAborted ab s.time = true) :
    runTournament options gen ab scen rn s = (s, Except.ok ()) := by
  unfold runTournament
  cases hr : (if options.rounds = 0 then 1 else options.rounds) with
  | zero =>
    exfalso
    by_cases h0 : options.rounds = 0 <;> simp [h0] at hr
  | succ n =>
    unfold rLoop
    rw [if_pos h]

/-- With no cancellation and a total generation oracle, the match loop
always ends normally. -/
theorem runLoop_ok_of_gen_ok (cfg : MatchNames) (gen : Nat → Except String Reply)
    (t0 : Nat) (hgen : ∀ n, ∃ r, gen n = Except.ok r) :
    ∀ (fuel : Nat) (st : LoopState),
      (runLoop cfg gen none t0 fuel st).2 = none := by
  intro fuel
  induction fuel with
  | zero => intro st; rfl
  | succ fuel ih =>
    intro st
    by_cases hc : st.turns < maxTurns ∧ st.dealReached = false
    · obtain ⟨r, hr⟩ := hgen (t0 + st.turns)
      cases hts : turnStep cfg r { st with turns := st.turns + 1 } with
      | halted st1 =>
        rw [runLoop_succ_halted cfg gen none t0 fuel st st1 r hc rfl hr hts]
      | stepped st1 =>
        rw [runLoop_succ_stepped cfg gen none t0 fuel st st1 r hc rfl hr hts]
        exact ih st1
    · rw [runLoop_stop cfg gen none t0 (fuel + 1) st hc]

/-- With no cancellation and a total oracle, `runMatch` completes, records
the configured party names, and appends exactly its own run file. -/
theorem serverRunMatch_gen_ok (runId : String) (bc sc : AgentConf)
    (tid : Option String) (gen : Nat → Except String Reply)
    (scen : Nat → ScenarioDraw) (s : TState)
    (hgen : ∀ n, ∃ r, gen n = Except.ok r) :
    ∃ (res : MatchResult) (s1 : TState),
      serverRunMatch runId bc sc tid gen none scen s = (s1, Except.ok res) ∧
      res.seller.name = sc.name ∧ res.buyer.name = bc.name ∧
      s1.store.runs = s.store.runs ++ [(runId, res)] := by
  have hok := runLoop_ok_of_gen_ok { sellerName := sc.name, buyerName := bc.name }
    gen s.time hgen maxTurns initState
  unfold serverRunMatch
  rw [if_neg (by simp [jsAborted])]
  dsimp only
  cases hr : (runLoop { sellerName := sc.name, buyerName := bc.name } gen none
      s.time maxTurns initState).2 with
  | some e => rw [hr] at hok; cases hok
  | none => exact ⟨_, _, rfl, rfl, rfl, rfl⟩

theorem tryRunMatch_gen_ok (runId : String) (bc sc : AgentConf)
    (tid : Option String) (gen : Nat → Except String Reply)
    (scen : Nat → ScenarioDraw) (s : TState)
    (hgen : ∀ n, ∃ r, gen n = Except.ok r) :
    ∃ (res : MatchResult) (s1 : TState),
      tryRunMatch runId bc sc tid gen none scen s = (s1, Except.ok ()) ∧
      res.seller.name = sc.name ∧ res.buyer.name = bc.name ∧
      s1.store.runs = s.store.runs ++ [(runId, res)] := by
  obtain ⟨res, s1, heq, h1, h2, h3⟩ :=
    serverRunMatch_gen_ok runId bc sc tid gen scen s hgen
  refine ⟨res, s1, ?_, h1, h2, h3⟩
  unfold tryRunMatch
  rw [heq]

theorem jLoop_gen_ok (keys : List String) (mm : List (String × String))
    (tid : Option String) (gen : Nat → Except String Reply)
    (scen : Nat → ScenarioDraw) (i : Nat)
    (hgen : ∀ n, ∃ r, gen n = Except.ok r) :
    ∀ (js : List Nat) (s : TState),
      ∃ s1, jLoop keys mm tid gen none scen i js s = (s1, Except.ok ()) ∧
        schedOf s1.store.runs = schedOf s.store.runs ++
          js.flatMap (fun j =>
            [(keys.getD i "", keys.getD j ""), (keys.getD j "", keys.getD i "")]) := by
  intro js
  induction js with
  | nil =>
    intro s
    exact ⟨s, rfl, by simp⟩
  | cons j rest ih =>
    intro s
    obtain ⟨res1, s1, heq1, ha1, hb1, hr1⟩ :=
      tryRunMatch_gen_ok (toString s.time ++ "_1")
        { name := keys.getD j "", modelId := modelVal mm (keys.getD j "") }
        { name := keys.getD i "", modelId := modelVal mm (keys.getD i "") }
        tid gen scen s hgen
    obtain ⟨res2, s2, heq2, ha2, hb2, hr2⟩ :=
      tryRunMatch_gen_ok (toString s1.time ++ "_2")
        { name := keys.getD i "", modelId := modelVal mm (keys.getD i "") }
        { name := keys.getD j "", modelId := modelVal mm (keys.getD j "") }
        tid gen scen s1 hgen
    obtain ⟨s3, heq3, hr3⟩ := ih s2
    refine ⟨s3, ?_, ?_⟩
    · unfold jLoop
      rw [if_neg (by simp [jsAborted])]
      dsimp only
      rw [heq1]
      dsimp only
      rw [if_neg (by simp [jsAborted])]
      rw [heq2]
      exact heq3
    · rw [hr3, hr2, hr1]
      simp only [schedOf, List.map_append, List.flatMap_cons, List.map_cons,
        List.map_nil, List.append_assoc]
      simp [ha1, hb1, ha2, hb2]

theorem iLoop_gen_ok (keys : List String) (mm : List (String × String))
    (tid : Option String) (gen : Nat → Except String Reply)
    (scen : Nat → ScenarioDraw)
    (hgen : ∀ n, ∃ r, gen n = Except.ok r) :
    ∀ (is : List Nat) (s : TState),
      ∃ s1, iLoop keys mm tid gen none scen is s = (s1, Except.ok ()) ∧
        schedOf s1.store.runs = schedOf s.store.runs ++
          is.flatMap (fun i =>
            (List.range' (i + 1) (keys.length - (i + 1))).flatMap (fun j =>
              [(keys.getD i "", keys.getD j ""), (keys.getD j "", keys.getD i "")])) := by
  intro is
  induction is with
  | nil =>
    intro s
    exact ⟨s, rfl, by simp⟩
  | cons i rest ih =>
    intro s
    obtain ⟨s1, heq1, hr1⟩ := jLoop_gen_ok keys mm tid gen scen i hgen
      (List.range' (i + 1) (keys.length - (i + 1))) s
    obtain ⟨s2, heq2, hr2⟩ := ih s1
    refine ⟨s2, ?_, ?_⟩
    · unfold iLoop
      rw [heq1]
      exact heq2
    · rw [hr2, hr1]
      simp [List.append_assoc]

theorem rLoop_gen_ok (keys : List String) (mm : List (String × String))
    (tid : Option String) (gen : Nat → Except String Reply)
    (scen : Nat → ScenarioDraw)
    (hgen : ∀ n, ∃ r, gen n = Except.ok r) :
    ∀ (rounds : Nat) (s : TState),
      ∃ s1, rLoop keys mm tid gen none scen rounds s = (s1, Except.ok ()) ∧
        schedOf s1.store.runs = schedOf s.store.runs ++ roundRobin keys rounds := by
  intro rounds
  induction rounds with
  | zero =>
    intro s
    exact ⟨s, rfl, by simp [roundRobin]⟩
  | succ r ih =>
    intro s
    obtain ⟨s1, heq1, hr1⟩ := iLoop_gen_ok keys mm tid gen scen hgen
      (List.range keys.length) s
    obtain ⟨s2, heq2, hr2⟩ := ih s1
    refine ⟨s2, ?_, ?_⟩
    · unfold rLoop
      rw [if_neg (by simp [jsAborted])]
      rw [heq1]
      exact heq2
    · rw [hr2, hr1, roundRobin]
      simp only [pairSchedule, List.append_assoc]

/-- Summation helper: shifting the subtrahend by one costs `2` per
element. -/
theorem sum_shift (n : Nat) (l : List Nat) (hl : ∀ i ∈ l, i < n) :
    (l.map (fun i => 2 * (n - i))).sum =
      (l.map (fun i => 2 * (n - (i + 1)))).sum + 2 * l.length := by
  induction l with
  | nil => simp
  | cons a t ih =>
    simp only [List.map_cons, List.sum_cons, List.length_cons]
    have ha : a < n := hl a (List.mem_cons_self a t)
    have ht : ∀ i ∈ t, i < n := fun i hi => hl i (List.mem_cons_of_mem a hi)
    rw [ih ht]
    omega

theorem gaussAux : ∀ n : Nat,
    ((List.range n).map (fun i => 2 * (n - (i + 1)))).sum = n * (n - 1) := by
  intro n
  induction n with
  | zero => rfl
  | succ n ih =>
    rw [List.range_succ]
    simp only [List.map_append, List.sum_append, List.map_cons, List.map_nil,
      List.sum_cons, List.sum_nil]
    have hcongr : ((List.range n).map (fun i => 2 * (n + 1 - (i + 1)))).sum =
        ((List.range n).map (fun i => 2 * (n - i))).sum := by
      congr 1
      apply List.map_congr_left
      intro i hi
      congr 1
      omega
    rw [hcongr, sum_shift n (List.range n) (fun i hi => List.mem_range.mp hi), ih]
    simp only [List.length_range, Nat.sub_self, Nat.mul_zero, Nat.add_zero]
    cases n with
    | zero => rfl
    | succ m =>
      simp only [Nat.succ_sub_one, Nat.sub_self, Nat.mul_zero, Nat.add_zero]
      ring

theorem pairSchedule_length (keys : List String) :
    (pairSchedule keys).length = keys.length * (keys.length - 1) := by
  unfold pairSchedule
  rw [List.length_flatMap]
  have hinner : ∀ i : Nat,
      ((List.range' (i + 1) (keys.length - (i + 1))).flatMap (fun j =>
        [(keys.getD i "", keys.getD j ""), (keys.getD j "", keys.getD i "")])).length =
      2 * (keys.length - (i + 1)) := by
    intro i
    rw [List.length_flatMap]
    have : ∀ l : List Nat,
        ((l.map (List.length ∘ fun j =>
          ([(keys.getD i "", keys.getD j ""), (keys.getD j "", keys.getD i "")] :
            List (String × String))))).sum = 2 * l.length := by
      intro l
      induction l with
      | nil => rfl
      | cons a t ih => simp only [List.map_cons, List.sum_cons, ih,
          List.length_cons]; simp [Function.comp]; omega
    rw [this, List.length_range']
  have hmap : (List.range keys.length).map (List.length ∘ fun i =>
      (List.range' (i + 1) (keys.length - (i + 1))).flatMap (fun j =>
        [(keys.getD i "", keys.getD j ""), (keys.getD j "", keys.getD i "")])) =
      (List.range keys.length).map (fun i => 2 * (keys.length - (i + 1))) := by
    apply List.map_congr_left
    intro i hi
    exact hinner i
  rw [hmap, gaussAux]

theorem roundRobin_length (keys : List String) :
    ∀ rounds : Nat, (roundRobin keys rounds).length =
      rounds * (keys.length * (keys.length - 1)) := by
  intro rounds
  induction rounds with
  | zero => simp [roundRobin]
  | succ r ih =>
    unfold roundRobin
    rw [List.length_append, pairSchedule_length, ih]
    ring

/-! ## C1 — validation of deal claims -/

/-- C1 (corrected): for the match engine, a `deal:true` reply is accepted
as a terminal DEAL iff a pending offer exists (`lastOffer !== null`), it
was made by the other role, and the claimed offer strictly equals it; on
any violation the engine logs a system rejection, downgrades the reply's
`deal` flag to `false` (in the pending state and in the logged entry), and
the claim itself neither concludes the match nor aborts it — but the match
need not continue: a rejected claim whose `offer` is null still counts
toward the silence streak, and on the second consecutive no-offer turn the
match terminates as NO_DEAL on the spot. -/
theorem C1_amended_dealValidation (cfg : MatchNames) (response : Reply)
    (st : LoopState) (hdeal : response.deal = true) :
    ((validateDeal response st).dealReached = true ↔ dealAccepted response st) ∧
    (¬ dealAccepted response st →
      (validateDeal response st).deal = false ∧
      (validateDeal response st).dealPrice = st.dealPrice ∧
      ((validateDeal response st).events =
          st.events ++ [SysEvent.rejectedMismatch response.offer st.lastOffer] ∨
        (validateDeal response st).events =
          st.events ++ [SysEvent.rejectedNoValidOffer]) ∧
      (∀ st1, turnStep cfg response st = TurnOut.stepped st1 →
        st1.dealReached = false ∧
        st1.logs = st.logs ++ [mkLogEntry cfg st response false]) ∧
      (∀ st1, turnStep cfg response st = TurnOut.halted st1 →
        st1.dealReached = false ∧ response.offer = JsVal.jnull ∧
        2 ≤ st.consecutiveNulls + 1)) ∧
    (dealAccepted response st →
      ∃ st1, turnStep cfg response st = TurnOut.stepped st1 ∧
        st1.dealReached = true ∧ st1.dealPrice = response.offer ∧
        st1.logs = st.logs ++ [mkLogEntry cfg st response true] ∧
        ∀ (gen : Nat → Except String Reply) (ab : Option Nat) (t0 fuel : Nat),
          runLoop cfg gen ab t0 fuel st1 = (st1, none)) := by
  have hiff : (validateDeal response st).dealReached = true ↔
      dealAccepted response st := by
    unfold validateDeal dealAccepted
    rw [hdeal]
    split_ifs with h1 h2 <;> simp_all
  refine ⟨hiff, ?_, ?_⟩
  · intro hna
    have hv : (validateDeal response st).dealReached = false := by
      cases hvr : (validateDeal response st).dealReached with
      | false => rfl
      | true => exact absurd (hiff.mp hvr) hna
    have hflag : (validateDeal response st).deal = false ∧
        (validateDeal response st).dealPrice = st.dealPrice ∧
        ((validateDeal response st).events =
            st.events ++ [SysEvent.rejectedMismatch response.offer st.lastOffer] ∨
          (validateDeal response st).events =
            st.events ++ [SysEvent.rejectedNoValidOffer]) := by
      unfold validateDeal
      rw [hdeal]
      split_ifs with h0 h1 h2
      · exact absurd ⟨h1.1, h1.2, h2⟩ hna
      · simp
      · simp
      · exact absurd rfl h0
    refine ⟨hflag.1, hflag.2.1, hflag.2.2, ?_, ?_⟩
    · intro st1 hstep
      unfold turnStep at hstep
      rw [if_pos hv] at hstep
      split_ifs at hstep with h1 h2 <;> cases hstep <;>
        exact ⟨by rw [stepFinish_dealReached]; exact hv,
          by rw [stepFinish_logs, hflag.1]⟩
    · intro st1 hstep
      unfold turnStep at hstep
      rw [if_pos hv] at hstep
      split_ifs at hstep with h1 h2 <;> cases hstep <;>
        exact ⟨hv, by simpa using h1, h2⟩
  · intro ha
    have hv : (validateDeal response st).dealReached = true := hiff.mpr ha
    obtain ⟨ha1, ha2, ha3⟩ := ha
    have hprice : (validateDeal response st).dealPrice = response.offer ∧
        (validateDeal response st).deal = true := by
      unfold validateDeal
      rw [hdeal]
      split_ifs with h0 h1 h2 <;>
        first
          | (simp; done)
          | exact absurd ha3 (by assumption)
          | exact absurd
              ((⟨ha1, ha2⟩ :
                st.lastOffer ≠ JsVal.jnull ∧ st.lastOfferBy ≠ some st.active))
              (by assumption)
          | exact absurd rfl (by assumption)
    unfold turnStep
    rw [if_neg (by simp [hv])]
    refine ⟨_, rfl, ?_, ?_, ?_, ?_⟩
    · rw [stepFinish_dealReached]; exact hv
    · rw [stepFinish_dealPrice]; exact hprice.1
    · rw [stepFinish_logs, hprice.2]
    · intro gen ab t0 fuel
      apply runLoop_dealReached
      rw [stepFinish_dealReached]; exact hv

/-- C1 counterexample: on turn 2 the buyer claims `deal:true` with a null
offer while no pending offer exists; the engine logs the rejection and
downgrades the claim — but the match does **not** continue: the rejected
turn is the second consecutive no-offer turn, so the match terminates as
NO_DEAL on that very turn (`turns = 2`) with ten turns of budget left. -/
theorem C1_counterexample :
    rejectSilenceGen 1 = Except.ok
      { thought := "t", message := "m", offer := JsVal.jnull, deal := true
        usage := none } ∧
    (serverRunMatch "r" confB confS none rejectSilenceGen none scen0 ts0).1.logLines =
      [SysEvent.rejectedNoValidOffer, SysEvent.silenceEnd, SysEvent.noDealEnd] ∧
    (serverRunMatch "r" confB confS none rejectSilenceGen none scen0 ts0).2.map
        (fun res => (res.dealReached, res.turns)) = Except.ok (false, 2) ∧
    (2 : Nat) < maxTurns := by
  refine ⟨rfl, rfl, rfl, by norm_num [maxTurns]⟩

/-- C1 witness: the amended validation applied to a concrete pending state:
a buyer accepting the seller's pending `120` is accepted; a seller claiming
its own pending `120` is rejected and its `deal` flag downgraded. -/
theorem C1_witness :
    (validateDeal
        { thought := "t", message := "m", offer := JsVal.num 120, deal := true
          usage := none }
        { initState with lastOffer := JsVal.num 120
                         lastOfferBy := some Role.seller
                         active := Role.buyer, turns := 2 }).dealReached = true ∧
    (validateDeal
        { thought := "t", message := "m", offer := JsVal.num 120, deal := true
          usage := none }
        { initState with lastOffer := JsVal.num 120
                         lastOfferBy := some Role.seller
                         active := Role.seller, turns := 3 }).deal = false := by
  constructor
  · exact (C1_amended_dealValidation names0 _ _ rfl).1.mpr (by decide)
  · exact ((C1_amended_dealValidation names0 _ _ rfl).2.1 (by decide)).1

/-! ## C5 — completeness of the per-turn match log -/

/-- C5 (corrected): every completed (non-`break`) turn is appended to the
match log — with turn index, `name (role)` sender, and the reply content
minus usage — and the logged turn indices are exactly `1, …, logs.length`;
but the log length equals the recorded turn count only when the match did
not end through the silence rule: the terminating second consecutive
no-offer turn is counted in `turns` and never pushed (`break` precedes
`logs.push`), leaving `logs.length + 1 = turns` in that case. -/
theorem C5_amended_logCompleteness (runId : String) (bc sc : AgentConf)
    (tid : Option String) (gen : Nat → Except String Reply) (ab : Option Nat)
    (scen : Nat → ScenarioDraw) (s : TState) (res : MatchResult)
    (hok : (serverRunMatch runId bc sc tid gen ab scen s).2 = Except.ok res) :
    res.logs.map (fun e => e.turn) = List.range' 1 res.logs.length ∧
    (res.logs.length = res.turns ∨ res.logs.length + 1 = res.turns) ∧
    (∀ e ∈ res.logs,
      senderOk { sellerName := sc.name, buyerName := bc.name } e) := by
  obtain ⟨hres, -⟩ := serverRunMatch_ok_inv runId bc sc tid gen ab scen s res hok
  subst hres
  have h := runLoop_log_invariant { sellerName := sc.name, buyerName := bc.name }
    gen ab s.time maxTurns initState rfl rfl rfl
    (by intro e he; cases he) (by intro e he; cases he)
  simp only [mkResult]
  exact ⟨h.1, h.2.1, h.2.2.1⟩

/-- C5 counterexample: in the match ending through the silence rule on a
rejected deal claim, the recorded turn count is `2` but the log holds a
single entry, for turn `1` only — the terminating turn is taken but never
appended, so the log does not contain one entry per turn `1…turns`. -/
theorem C5_counterexample :
    (serverRunMatch "r" confB confS none rejectSilenceGen none scen0 ts0).2.map
        (fun res => (res.turns, res.logs.map (fun e => e.turn))) =
      Except.ok (2, [1]) ∧
    [1] ≠ List.range' 1 2 := by
  exact ⟨rfl, by decide⟩

/-- C5 witness: the amended log-completeness applied to a concrete
deal-path run: the log indices are `1, 2` and the log length equals the
turn count. -/
theorem C5_witness :
    (theResult (serverRunMatch "w5" confB confS none dealGen none scen0 ts0).2).logs.map
        (fun e => e.turn) =
      List.range' 1
        (theResult (serverRunMatch "w5" confB confS none dealGen none scen0 ts0).2).logs.length ∧
    ((theResult (serverRunMatch "w5" confB confS none dealGen none scen0 ts0).2).logs.length =
        (theResult (serverRunMatch "w5" confB confS none dealGen none scen0 ts0).2).turns ∨
      (theResult (serverRunMatch "w5" confB confS none dealGen none scen0 ts0).2).logs.length + 1 =
        (theResult (serverRunMatch "w5" confB confS none dealGen none scen0 ts0).2).turns) := by
  have h := C5_amended_logCompleteness "w5" confB confS none dealGen none scen0 ts0
    (theResult (serverRunMatch "w5" confB confS none dealGen none scen0 ts0).2) rfl
  exact ⟨h.1, h.2.1⟩

/-! ## C10 — deal flags in persisted logs -/

/-- C10 (corrected): in a persisted result, an entry with
`content.deal = true` can only be the final logged entry of a match whose
`dealReached` flag is true, and every rejected claim that *is* appended is
appended with the flag already downgraded to `false`; however, a rejected
deal claim arriving on the terminating second consecutive no-offer turn is
never appended at all, so not every rejected claim appears in the log. -/
theorem C10_amended_dealFlagInLog (runId : String) (bc sc : AgentConf)
    (tid : Option String) (gen : Nat → Except String Reply) (ab : Option Nat)
    (scen : Nat → ScenarioDraw) (s : TState) (res : MatchResult)
    (hok : (serverRunMatch runId bc sc tid gen ab scen s).2 = Except.ok res) :
    (∀ e ∈ res.logs.dropLast, e.content.deal = false) ∧
    (res.dealReached = false → ∀ e ∈ res.logs, e.content.deal = false) ∧
    (∀ (cfg : MatchNames) (response : Reply) (st st1 : LoopState),
      response.deal = true → st.dealReached = false →
      (validateDeal response st).dealReached = false →
      turnStep cfg response st = TurnOut.stepped st1 →
      st1.logs = st.logs ++ [mkLogEntry cfg st response false]) := by
  obtain ⟨hres, -⟩ := serverRunMatch_ok_inv runId bc sc tid gen ab scen s res hok
  have h := runLoop_log_invariant { sellerName := sc.name, buyerName := bc.name }
    gen ab s.time maxTurns initState rfl rfl rfl
    (by intro e he; cases he) (by intro e he; cases he)
  subst hres
  refine ⟨?_, ?_, ?_⟩
  · simpa [mkResult] using h.2.2.2.1
  · intro hnd
    simpa [mkResult] using h.2.2.2.2 (by simpa [mkResult] using hnd)
  · intro cfg response st st1 hd hstd hvd hts
    obtain ⟨hl, -, -⟩ := turnStep_stepped_inv cfg response st st1 hts
    rw [hl, validateDeal_deal_eq response st hstd, hvd]

/-- C10 counterexample: the turn-2 reply claims `deal:true`, the engine
rejects it (the match ends with `dealReached = false`), yet the persisted
log holds only the turn-1 entry — the rejected claim never appears in the
log at all, with or without a downgraded flag. -/
theorem C10_counterexample :
    rejectSilenceGen 1 = Except.ok
      { thought := "t", message := "m", offer := JsVal.jnull, deal := true
        usage := none } ∧
    (serverRunMatch "r" confB confS none rejectSilenceGen none scen0 ts0).2.map
        (fun res => (res.dealReached,
          res.logs.map (fun e => (e.turn, e.content.deal)))) =
      Except.ok (false, [(1, false)]) := by
  exact ⟨rfl, rfl⟩

/-- C10 witness: the amended theorem applied to a concrete silent no-deal
run: the (only) logged entry carries `deal = false`. -/
theorem C10_witness :
    ((theResult (serverRunMatch "w10" confB confS none silentGen none scen0 ts0).2).logs.getD
        0 dummyEntry).content.deal = false := by
  have h := C10_amended_dealFlagInLog "w10" confB confS none silentGen none scen0 ts0
    (theResult (serverRunMatch "w10" confB confS none silentGen none scen0 ts0).2) rfl
  exact h.2.1 (by decide) _ (by decide)

/-! ## C6 — cancellation of a tournament -/

/-- C6 (corrected): a cancellation observed at a scheduling checkpoint
(between matches, pairings or rounds — in particular one already set at
entry) stops scheduling and makes `runTournament` return cleanly without an
error; but a cancellation observed *inside* a match surfaces as the
distinguished thrown condition `"Benchmark Aborted"`, which `runTournament`
re-raises to its caller rather than swallowing — and that distinguished
condition is the only one `runTournament` can ever raise. -/
theorem C6_amended_cancellation (options : TournamentOptions)
    (gen : Nat → Except String Reply) (ab : Option Nat)
    (scen : Nat → ScenarioDraw) (rn : String) (s : TState) :
    (∀ (s1 : TState) (e : String),
      runTournament options gen ab scen rn s = (s1, Except.error e) →
      e = abortedMsg) ∧
    (jsAborted ab s.time = true →
      runTournament options gen ab scen rn s = (s, Except.ok ())) := by
  constructor
  · intro s1 e h
    unfold runTournament at h
    exact rLoop_error _ _ _ gen ab scen _ s s1 e h
  · intro h
    exact runTournament_abortedAtEntry options gen ab scen rn s h

/-- C6 counterexample: with the cancellation signal becoming set while the
first match is in flight (after one generation call), `runTournament` does
not return cleanly — it raises the `"Benchmark Aborted"` condition out of
the tournament layer, which the transport layer reports as an error
event. -/
theorem C6_counterexample :
    (runTournament opts2 undefGen (some 1) scen0 "RN" ts0).2 =
      Except.error abortedMsg ∧
    abortedMsg = "Benchmark Aborted" := by
  exact ⟨rfl, rfl⟩

/-- C6 witness: the amended theorem applied to a concrete tournament whose
signal is set before it starts: it returns cleanly with nothing
scheduled. -/
theorem C6_witness :
    runTournament opts2 undefGen (some 0) scen0 "RN" ts0 =
      (ts0, Except.ok ()) :=
  (C6_amended_cancellation opts2 undefGen (some 0) scen0 "RN" ts0).2 rfl

/-! ## C7 — atomicity of the result store under cancellation -/

/-- C7 (confirmed): a match that ends in a thrown condition (cancellation
or provider failure) leaves the result store exactly as it was — no run
file, no manifest entry, no scores; a completed match appends exactly its
own run file and prepends exactly its own manifest entry; and across a whole
tournament — cancelled or not — the store only ever grows by appended run
files and prepended manifest entries, so every already-persisted record
survives unchanged. -/
theorem C7_cancellationAtomicity (runId : String) (bc sc : AgentConf)
    (tid : Option String) (gen : Nat → Except String Reply) (ab : Option Nat)
    (scen : Nat → ScenarioDraw) (s : TState) (options : TournamentOptions)
    (gen2 : Nat → Except String Reply) (ab2 : Option Nat)
    (scen2 : Nat → ScenarioDraw) (rn : String) (s0 : TState) :
    (∀ e, (serverRunMatch runId bc sc tid gen ab scen s).2 = Except.error e →
      (serverRunMatch runId bc sc tid gen ab scen s).1.store = s.store) ∧
    (∀ res, (serverRunMatch runId bc sc tid gen ab scen s).2 = Except.ok res →
      (serverRunMatch runId bc sc tid gen ab scen s).1.store.runs =
        s.store.runs ++ [(runId, res)] ∧
      (serverRunMatch runId bc sc tid gen ab scen s).1.store.manifest =
        mkManifestEntry res :: s.store.manifest) ∧
    storeExtends s0.store (runTournament options gen2 ab2 scen2 rn s0).1.store := by
  refine ⟨?_, ?_, ?_⟩
  · intro e h
    exact serverRunMatch_error_store runId bc sc tid gen ab scen s e h
  · intro res h
    exact serverRunMatch_ok_store runId bc sc tid gen ab scen s res h
  · exact runTournament_storeExtends options gen2 ab2 scen2 rn s0

/-- C7 witness: concretely, a match aborted at its very start writes
nothing (the store is unchanged), and a completed deal match appends its
single run file. -/
theorem C7_witness :
    (serverRunMatch "w7" confB confS none silentGen (some 0) scen0 ts0).1.store =
      ts0.store ∧
    (serverRunMatch "w7" confB confS none dealGen none scen0 ts0).1.store.runs =
      ts0.store.runs ++
        [("w7", theResult (serverRunMatch "w7" confB confS none dealGen none scen0 ts0).2)] := by
  constructor
  · exact (C7_cancellationAtomicity "w7" confB confS none silentGen (some 0) scen0 ts0
      opts2 silentGen none scen0 "RN" ts0).1 abortedMsg rfl
  · exact ((C7_cancellationAtomicity "w7" confB confS none dealGen none scen0 ts0
      opts2 silentGen none scen0 "RN" ts0).2.1
      (theResult (serverRunMatch "w7" confB confS none dealGen none scen0 ts0).2) rfl).1

/-! ## C8 — round-robin tournament scheduling -/

/-- C8 (confirmed): absent cancellation (and with every generation call
succeeding), a tournament over the resolved roster keys runs, for every
round and every pair `i < j`, exactly two matches — `keys[i]`-as-seller vs
`keys[j]`-as-buyer first, then the roles swapped — in that order, and the
total number of matches persisted is `rounds × N × (N − 1)` for `N` roster
keys. -/
theorem C8_roundRobinSchedule (options : TournamentOptions)
    (gen : Nat → Except String Reply) (scen : Nat → ScenarioDraw)
    (rn : String) (s : TState)
    (hgen : ∀ n, ∃ r, gen n = Except.ok r) (hr : options.rounds ≠ 0) :
    ∃ s1, runTournament options gen none scen rn s = (s1, Except.ok ()) ∧
      schedOf s1.store.runs = schedOf s.store.runs ++
        roundRobin (tournamentKeys options) options.rounds ∧
      (roundRobin (tournamentKeys options) options.rounds).length =
        options.rounds *
          ((tournamentKeys options).length * ((tournamentKeys options).length - 1)) := by
  obtain ⟨s1, heq, hsched⟩ := rLoop_gen_ok
    ((resolveModels options.models).map (fun p => p.1))
    (resolveModels options.models)
    (match options.tournamentName with
     | some n => if n = "" then some rn else some n
     | none => some rn)
    gen scen hgen options.rounds s
  refine ⟨s1, ?_, hsched, roundRobin_length _ _⟩
  unfold runTournament
  dsimp only
  rw [if_neg hr]
  exact heq

/-- C8 witness: a concrete two-model one-round tournament persists exactly
the two matches `A-seller/B-buyer` then `B-seller/A-buyer`. -/
theorem C8_witness :
    schedOf (runTournament opts2 silentGen none scen0 "RN" ts0).1.store.runs =
      [("A", "B"), ("B", "A")] := by
  obtain ⟨s1, he, hs, -⟩ := C8_roundRobinSchedule opts2 silentGen scen0 "RN" ts0
    (fun n => ⟨nullReply, rfl⟩) (by decide)
  rw [he]
  dsimp only
  rw [hs]
  rfl

/-! ## C9 — Agent parsing of raw model output -/

/-- C9 (corrected): the Agent runs the greedy brace regex *first* — the
span from the first `\x7b` to the last `\x7d` — and `JSON.parse`s that
span when it exists; the whole raw text is parsed directly only when the
text contains no such span; whenever the attempted parse fails, the Agent
returns (never throws) the fallback reply with
`thought = "Failed to parse JSON output"`, `message` = the raw text,
`offer = null`, `deal = false`. -/
theorem C9_amended_parseProcedure :
    (∀ text, agentParse text = agentParseAmended text) ∧
    (∀ text, jsonParse ((jsonMatchGreedy text).getD text) = none →
      agentParse text = fallbackReply text) ∧
    (∀ raw,
      (fallbackReply raw).thought = some (JVal.jstr ("Failed to parse JSON output")) ∧
      (fallbackReply raw).message = some (JVal.jstr raw) ∧
      (fallbackReply raw).offer = some JVal.jnull ∧
      (fallbackReply raw).deal = some (JVal.jbool false)) := by
  refine ⟨?_, ?_, ?_⟩
  · intro text
    unfold agentParse agentParseAmended parseAttempt
    cases hm : jsonMatchGreedy text with
    | some m => simp [hm]
    | none => simp [hm]
  · intro text hp
    unfold agentParse
    cases hm : jsonMatchGreedy text with
    | some m =>
      rw [hm] at hp
      simp only [Option.getD_some] at hp
      simp [hp]
    | none =>
      rw [hm] at hp
      simp only [Option.getD_none] at hp
      simp [hp]
  · intro raw
    exact ⟨rfl, rfl, rfl, rfl⟩

/-- C9 counterexample: on the raw text `\x7b"deal":false\x7d \x7d` (a
valid JSON object followed by a stray closing brace) the code's
regex-first procedure parses the greedy span — which fails — and so
returns the fallback reply; the claimed direct-parse-then-first-block
procedure would instead succeed on the first top-level block and return a
parsed reply.  The two procedures disagree on this input. -/
theorem C9_counterexample :
    (agentParse ex9).offer = some JVal.jnull ∧
    (agentParse ex9).message = some (JVal.jstr ex9) ∧
    (agentParseSpec ex9).offer = none ∧
    (agentParseSpec ex9).message = none ∧
    (agentParseSpec ex9).deal = some (JVal.jbool false) ∧
    (agentParse ex9).offer ≠ (agentParseSpec ex9).offer := by
  refine ⟨rfl, rfl, rfl, rfl, rfl, ?_⟩
  have h1 : (agentParse ex9).offer = some JVal.jnull := rfl
  have h2 : (agentParseSpec ex9).offer = none := rfl
  rw [h1, h2]
  simp

/-- C9 witness: the amended procedure applied to a concrete brace-free,
non-JSON text: the Agent returns exactly the fallback reply. -/
theorem C9_witness : agentParse "hello" = fallbackReply "hello" :=
  C9_amended_parseProcedure.2.1 "hello" rfl

/-! ## C2 — scoring of a DEAL -/

/-- C2 (corrected): the deal-scoring formulas hold for every accepted price
`P` with `P ≠ 0`; but an accepted price of exactly `0` (or a deal concluded
on an absent offer value) is scored `0.0` for both sides, because the
scoring guard `if (dealReached && dealPrice)` tests JavaScript truthiness of
the price. -/
theorem C2_amended_dealScoring (runId : String) (bc sc : AgentConf)
    (tid : Option String) (gen : Nat → Except String Reply) (ab : Option Nat)
    (scen : Nat → ScenarioDraw) (s : TState) (res : MatchResult) (p : Rat)
    (hok : (serverRunMatch runId bc sc tid gen ab scen s).2 = Except.ok res)
    (hdeal : res.dealReached = true) :
    (res.dealPrice = JsVal.num p → p ≠ 0 →
      res.seller.score =
        (p - (res.seller.estimate : Rat)) / (res.seller.estimate : Rat) ∧
      res.buyer.score =
        ((res.buyer.estimate : Rat) - p) / (res.buyer.estimate : Rat)) ∧
    (res.dealPrice.truthy = false →
      res.seller.score = 0 ∧ res.buyer.score = 0) := by
  obtain ⟨hres, -⟩ :=
    serverRunMatch_ok_inv runId bc sc tid gen ab scen s res hok
  subst hres
  simp only [mkResult] at hdeal ⊢
  constructor
  · intro hp hp0
    simp only [sellerScoreOf, buyerScoreOf, hdeal, hp, JsVal.truthy, JsVal.toRat]
    simp [hp0]
  · intro hf
    simp [sellerScoreOf, buyerScoreOf, hf]

/-- C2 counterexample: a pending offer of `0` is accepted (`dealReached`
becomes true at price `0`), yet both recorded scores are `0.0`, not the
claimed `(0 − Es)/Es = −1` and `(Eb − 0)/Eb = 1` (seller estimate and buyer
estimate are both `100` here). -/
theorem C2_counterexample :
    ((serverRunMatch "r" confB confS none zeroDealGen none scen0 ts0).2.map
        (fun res => (res.dealReached, res.dealPrice, res.seller.estimate,
          res.buyer.estimate, res.seller.score, res.buyer.score)) =
      Except.ok (true, JsVal.num 0, 100, 100, (0 : Rat), (0 : Rat))) ∧
    ((0 : Rat) - 100) / 100 ≠ 0 ∧ ((100 : Rat) - 0) / 100 ≠ 0 := by
  refine ⟨rfl, by norm_num, by norm_num⟩

/-- C2 witness: for the concrete match in which the seller's offer of `120`
is accepted, the amended theorem yields the exact scores
`(120 − 100)/100 = 1/5` and `(100 − 120)/100 = −1/5`. -/
theorem C2_witness :
    (theResult (serverRunMatch "r" confB confS none dealGen none scen0 ts0).2).seller.score
        = (1 / 5 : Rat) ∧
    (theResult (serverRunMatch "r" confB confS none dealGen none scen0 ts0).2).buyer.score
        = -(1 / 5 : Rat) := by
  have h := C2_amended_dealScoring "r" confB confS none dealGen none scen0 ts0
    (theResult (serverRunMatch "r" confB confS none dealGen none scen0 ts0).2) 120
    rfl (by decide)
  have h2 := h.1 (by decide) (by norm_num)
  have he :
      (theResult (serverRunMatch "r" confB confS none dealGen none scen0 ts0).2).seller.estimate
        = 100 ∧
      (theResult (serverRunMatch "r" confB confS none dealGen none scen0 ts0).2).buyer.estimate
        = 100 := by exact ⟨rfl, rfl⟩
  rw [h2.1, h2.2, he.1, he.2]
  norm_num

/-! ## C3 — scoring of a NO_DEAL -/

/-- C3 (corrected): in the tournament match engine
(`src/server/benchmark.js`) a match that ends without a deal records exactly
`0.0` for both sides; but the standalone CLI runner (`src/unnamed/part_000`)
scores the very same outcome as a `−0.5` penalty for each side, so recorded
no-deal scores are not always `0.0` / never-negative across the code base. -/
theorem C3_amended_noDealScoring (runId : String) (bc sc : AgentConf)
    (tid : Option String) (gen : Nat → Except String Reply) (ab : Option Nat)
    (scen : Nat → ScenarioDraw) (s : TState) (res : MatchResult)
    (hok : (serverRunMatch runId bc sc tid gen ab scen s).2 = Except.ok res)
    (hnd : res.dealReached = false)
    (cfg : MatchNames) (se be : Int) (script : Nat → Reply)
    (hcnd : (cliRunMatch cfg se be script).dealReached = false) :
    (res.seller.score = 0 ∧ res.buyer.score = 0) ∧
    ((cliRunMatch cfg se be script).sellerScore = -(1 / 2 : Rat) ∧
      (cliRunMatch cfg se be script).buyerScore = -(1 / 2 : Rat)) := by
  constructor
  · obtain ⟨hres, -⟩ :=
      serverRunMatch_ok_inv runId bc sc tid gen ab scen s res hok
    subst hres
    simp only [mkResult] at hnd ⊢
    simp [sellerScoreOf, buyerScoreOf, hnd]
  · unfold cliRunMatch at hcnd ⊢
    simp only at hcnd
    simp [hcnd]

/-- C3 counterexample: a CLI match in which every turn is silent ends with
no deal and records `−0.5` — negative, not `0.0` — for both sides. -/
theorem C3_counterexample :
    (cliRunMatch names0 100 100 (fun _ => nullReply)).dealReached = false ∧
    (cliRunMatch names0 100 100 (fun _ => nullReply)).sellerScore = -(1 / 2 : Rat) ∧
    (cliRunMatch names0 100 100 (fun _ => nullReply)).buyerScore = -(1 / 2 : Rat) ∧
    (cliRunMatch names0 100 100 (fun _ => nullReply)).sellerScore < 0 := by
  have h : (cliRunMatch names0 100 100 (fun _ => nullReply)).sellerScore
      = -(1 / 2 : Rat) := rfl
  exact ⟨rfl, rfl, rfl, by rw [h]; norm_num⟩

/-- C3 witness: the amended theorem applied to a concrete server-engine
match ending in silence (scores `0.0`) and a concrete CLI match (scores
`−0.5`). -/
theorem C3_witness :
    ((theResult (serverRunMatch "w3" confB confS none silentGen none scen0 ts0).2).seller.score = 0 ∧
      (theResult (serverRunMatch "w3" confB confS none silentGen none scen0 ts0).2).buyer.score = 0) ∧
    ((cliRunMatch names0 100 100 (fun _ => undefReply)).sellerScore = -(1 / 2 : Rat) ∧
      (cliRunMatch names0 100 100 (fun _ => undefReply)).buyerScore = -(1 / 2 : Rat)) :=
  C3_amended_noDealScoring "w3" confB confS none silentGen none scen0 ts0
    (theResult (serverRunMatch "w3" confB confS none silentGen none scen0 ts0).2)
    rfl (by decide) names0 100 100 (fun _ => undefReply) (by decide)

/-! ## C4 — the consecutive-no-offer silence rule -/

/-- C4 (corrected): a turn whose `offer` is exactly JSON `null` (after
deal-claim validation) increments the silence streak and the second such
turn halts the loop immediately as NO_DEAL, regardless of the remaining
budget; but any non-null offer value — including an absent/`undefined`
offer, which the engine's `response.offer !== null` test treats as a
present offer — resets the streak to zero instead of counting as "no
offer". -/
theorem C4_amended_silenceRule (cfg : MatchNames) (response : Reply)
    (st : LoopState)
    (hv : (validateDeal response st).dealReached = false) :
    (response.offer = JsVal.jnull → 2 ≤ st.consecutiveNulls + 1 →
      turnStep cfg response st = TurnOut.halted
        { st with dealReached := (validateDeal response st).dealReached
                  dealPrice := (validateDeal response st).dealPrice
                  consecutiveNulls := st.consecutiveNulls + 1
                  events := (validateDeal response st).events ++ [SysEvent.silenceEnd] }) ∧
    (response.offer ≠ JsVal.jnull →
      ∃ st1, turnStep cfg response st = TurnOut.stepped st1 ∧
        st1.consecutiveNulls = 0 ∧ st1.lastOffer = response.offer ∧
        st1.dealReached = false) ∧
    (∀ (gen : Nat → Except String Reply) (ab : Option Nat) (t0 fuel : Nat)
      (st0 st1 : LoopState),
      st0.turns < maxTurns → st0.dealReached = false →
      jsAborted ab (t0 + st0.turns) = false →
      gen (t0 + st0.turns) = Except.ok response →
      turnStep cfg response { st0 with turns := st0.turns + 1 } = TurnOut.halted st1 →
      runLoop cfg gen ab t0 (fuel + 1) st0 = (st1, none)) := by
  refine ⟨?_, ?_, ?_⟩
  · intro hoff hge
    unfold turnStep
    rw [if_pos hv, if_neg (by simp [hoff]), if_pos hge]
  · intro hoff
    unfold turnStep
    rw [if_pos hv, if_pos hoff]
    exact ⟨_, rfl, stepFinish_consecutiveNulls _ _ _ _ _ _ _,
      stepFinish_lastOffer _ _ _ _ _ _ _,
      by rw [stepFinish_dealReached]; exact hv⟩
  · intro gen ab t0 fuel st0 st1 hlt hdr hab hgen hhalt
    rw [hdr] at hhalt
    unfold runLoop
    simp [hlt, hdr, hab, hgen, hhalt]

/-- C4 counterexample: a match in which every reply's `offer` field is
absent (`undefined`, not `null`) never triggers the silence rule: it runs
the full 12-turn budget (instead of terminating as NO_DEAL on turn 2) and
every logged turn indeed carries no offer value. -/
theorem C4_counterexample :
    (serverRunMatch "r" confB confS none undefGen none scen0 ts0).2.map
        (fun res => (res.dealReached, res.turns, res.logs.length,
          res.logs.map (fun e => e.content.offer))) =
      Except.ok (false, 12, 12, List.replicate 12 JsVal.undef) := rfl

/-- C4 witness: the amended silence rule applied to a concrete state with
one prior silent turn and a concrete null-offer reply: the loop halts with
the streak at 2. -/
theorem C4_witness :
    turnStep names0 nullReply
      { initState with turns := 2, consecutiveNulls := 1, active := Role.buyer } =
    TurnOut.halted
      { initState with turns := 2, consecutiveNulls := 2, active := Role.buyer
                       events := [SysEvent.silenceEnd] } := by
  have h := (C4_amended_silenceRule names0 nullReply
    { initState with turns := 2, consecutiveNulls := 1, active := Role.buyer }
    (by decide)).1 rfl (by norm_num)
  simpa using h

end Lowballm
